import Mathlib

/-!
# memstress / libroute: a shallow embedding

The development models two C translation units.

* `libroute.c`: a session handle (`rt_handle`) holding the address slots `so[RTAX_MAX]`, the
  presence bitmask `rtm_addrs` and the last error code; the encoder `fill_rtmsg`; the request
  exchange `libroute_modify` and its four wrappers.
* `memstress.c`: the histogram (`histstore`, `histprint`) and the route load generator
  (`routestress`).

Machine integers are natural numbers or integers with an explicit reduction where the C type
is narrower than the value computed. System calls are oracles: their results are arguments.
-/

namespace Memstress

/-! ## Platform constants -/

/-- Constants of the platform headers that the sources use but do not define. -/
structure Target where
  /-- Size of `long`, the unit `SA_SIZE` rounds to. -/
  sizeof_long : Nat
  /-- Size of `struct rt_msghdr`, which is the offset of `m_space` in `rt_msg_t`. -/
  sizeof_rt_msghdr : Nat
  /-- Size of `struct sockaddr_dl`. -/
  sizeof_sockaddr_dl : Nat
  /-- Size of `struct sockaddr_in`. -/
  sizeof_sockaddr_in : Nat
  AF_INET : Nat
  AF_LINK : Nat
  RTM_ADD : Nat
  RTM_DELETE : Nat
  RTM_CHANGE : Nat
  RTM_GET : Nat
  RTM_VERSION : Nat
  RTF_UP : Nat
  RTF_GATEWAY : Nat
  RTF_HOST : Nat
  RTF_STATIC : Nat

/-- The values of FreeBSD on a 64-bit machine. -/
def freebsd64 : Target where
  sizeof_long := 8
  sizeof_rt_msghdr := 152
  sizeof_sockaddr_dl := 54
  sizeof_sockaddr_in := 16
  AF_INET := 2
  AF_LINK := 18
  RTM_ADD := 1
  RTM_DELETE := 2
  RTM_CHANGE := 3
  RTM_GET := 4
  RTM_VERSION := 5
  RTF_UP := 1
  RTF_GATEWAY := 2
  RTF_HOST := 4
  RTF_STATIC := 2048

/-- What the proofs need of a target: `long` has four or eight bytes, the header leaves room in
the 16-bit length field for six slots of the largest size, the link-layer family is a non-zero
byte, `struct sockaddr_dl` has a length that fits the one-byte length field, and the lookup
operation code differs from the three others. -/
structure Target.wf (T : Target) : Prop where
  long : T.sizeof_long = 4 ∨ T.sizeof_long = 8
  hdr : T.sizeof_rt_msghdr + 6 * 256 < 65536
  af_link : 0 < T.AF_LINK ∧ T.AF_LINK < 256
  dl : 0 < T.sizeof_sockaddr_dl ∧ T.sizeof_sockaddr_dl < 256
  add_ne : T.RTM_ADD ≠ T.RTM_GET
  delete_ne : T.RTM_DELETE ≠ T.RTM_GET
  change_ne : T.RTM_CHANGE ≠ T.RTM_GET

/-- Modelled from the spec: the role indices `RTAX_*` of `<net/route.h>`; the payload order is
DST, GATEWAY, NETMASK, GENMASK, IFP, IFA. -/
def RTAX_DST : Nat := 0
/-- Modelled from the spec: role index of the gateway. -/
def RTAX_GATEWAY : Nat := 1
/-- Modelled from the spec: role index of the netmask. -/
def RTAX_NETMASK : Nat := 2
/-- Modelled from the spec: role index of the generated mask. -/
def RTAX_GENMASK : Nat := 3
/-- Modelled from the spec: role index of the interface pointer. -/
def RTAX_IFP : Nat := 4
/-- Modelled from the spec: role index of the interface address. -/
def RTAX_IFA : Nat := 5

/-- Modelled from the spec: the presence bits `RTA_*` of `<net/route.h>`; bit `i` of the
bitmask stands for slot `i`. -/
def RTA_DST : Nat := 1 <<< RTAX_DST
/-- Modelled from the spec: presence bit of the gateway. -/
def RTA_GATEWAY : Nat := 1 <<< RTAX_GATEWAY
/-- Modelled from the spec: presence bit of the netmask. -/
def RTA_NETMASK : Nat := 1 <<< RTAX_NETMASK
/-- Modelled from the spec: presence bit of the generated mask. -/
def RTA_GENMASK : Nat := 1 <<< RTAX_GENMASK
/-- Modelled from the spec: presence bit of the interface pointer. -/
def RTA_IFP : Nat := 1 <<< RTAX_IFP
/-- Modelled from the spec: presence bit of the interface address. -/
def RTA_IFA : Nat := 1 <<< RTAX_IFA

/-- Size of `struct sockaddr_storage`, the element type of `so[]`. -/
def sizeof_sockaddr_storage : Nat := 128

/-- Size of `m_space` in `rt_msg_t` (libroute.h). -/
def sizeof_m_space : Nat := 512

/-- Modelled from the spec: the macro `SA_SIZE` of `<net/route.h>` is not part of the sources.
The serialized size of a slot is its length rounded up to a multiple of `sizeof(long)`, and a
zero length counts as one `long`. -/
def SA_SIZE (T : Target) (len : Nat) : Nat :=
  if len = 0 then T.sizeof_long
  else (len + T.sizeof_long - 1) / T.sizeof_long * T.sizeof_long

/-! ## libroute.c: data -/

/-- A socket address as the caller hands it over: the bytes of the object, byte 0 being
`sa_len` and byte 1 `sa_family`. -/
abbrev sockaddr := List Nat

/-- Field `sa_len`, one byte. -/
def sa_len (sa : sockaddr) : Nat := sa.getD 0 0 % 256

/-- The session handle `struct rt_handle_t`. The array `so[RTAX_MAX]` is kept as its bytes:
slot `i` starts at offset `i * sizeof(struct sockaddr_storage)`. -/
structure rt_handle where
  fib : Int
  s : Int
  so : Nat → Nat
  rtm_addrs : Nat
  errcode : Int

/-- Offset of slot `idx` in `so`. -/
def so_off (idx : Nat) : Nat := idx * sizeof_sockaddr_storage

/-- Field `so[idx].ss_len`, one byte. -/
def ss_len (h : rt_handle) (idx : Nat) : Nat := h.so (so_off idx) % 256

/-- Field `so[idx].ss_family`, one byte. -/
def ss_family (h : rt_handle) (idx : Nat) : Nat := h.so (so_off idx + 1) % 256

/-- The `n` bytes of `so` from offset `off`. -/
def so_bytes (h : rt_handle) (off n : Nat) : List Nat :=
  (List.range n).map (fun k => h.so (off + k))

/-- The header `struct rt_msghdr`, with the fields that `fill_rtmsg` assigns. `rtm_msglen` is
an unsigned 16-bit field, `rtm_version` and `rtm_type` are bytes. -/
structure rt_msghdr where
  rtm_msglen : Nat
  rtm_version : Nat
  rtm_type : Nat
  rtm_flags : Nat
  rtm_addrs : Nat
  rtm_seq : Int
  rtm_inits : Nat
  deriving DecidableEq, Repr

/-- The message `rt_msg_t`: the header and the bytes of `m_space`. -/
structure rt_msg_t where
  m_rtm : rt_msghdr
  m_space : List Nat
  deriving DecidableEq, Repr

/-- The handle after `calloc`: every byte zero. -/
def rt_handle.zero : rt_handle :=
  { fib := 0, s := 0, so := fun _ => 0, rtm_addrs := 0, errcode := 0 }

/-- Result of a system call: the value returned and `errno` after the call. -/
structure SysResult where
  result : Int
  errno : Int
  deriving DecidableEq, Repr

/-! ## libroute.c: functions -/

/-- `libroute_setfib`: stores `fib`, and on a failing `setsockopt` records `errno`. -/
def libroute_setfib (h : rt_handle) (fib : Int) (setsockopt : SysResult) : Int × rt_handle :=
  let h := { h with fib := fib }
  if setsockopt.result = -1 then (-1, { h with errcode := setsockopt.errno })
  else (0, h)

/-- `libroute_open` for a successful `calloc`: `none` stands for the `NULL` it returns when
`errcode` is set. -/
def libroute_open (fib : Int) (socket setsockopt : SysResult) : Option rt_handle :=
  let h := rt_handle.zero
  let h := { h with s := socket.result }
  let h := if h.s = -1 then { h with errcode := socket.errno } else h
  let r := libroute_setfib h fib setsockopt
  let h := if r.1 ≠ 0 then { r.2 with errcode := setsockopt.errno } else r.2
  if h.errcode ≠ 0 then none else some h

/-- `libroute_errno`. -/
def libroute_errno (h : rt_handle) : Int := h.errcode

/-- `memcpy(so + off, src, n)`: the `n` bytes from `off` on become those of `src`. -/
def memcpy (so : Nat → Nat) (off : Nat) (src : List Nat) (n : Nat) : Nat → Nat :=
  fun j => if off ≤ j ∧ j < off + n then src.getD (j - off) 0 else so j

/-- `fillso`: sets bit `idx` of `rtm_addrs` and copies `sa_in->sa_len` bytes into slot `idx`. -/
def fillso (h : rt_handle) (idx : Nat) (sa_in : sockaddr) : rt_handle :=
  { h with
    rtm_addrs := h.rtm_addrs ||| (1 <<< idx)
    so := memcpy h.so (so_off idx) sa_in (sa_len sa_in) }

/-- The macro `NEXTADDR(w, so[idx])` of `fill_rtmsg`; `cp` is the payload moved so far. -/
def NEXTADDR (T : Target) (h : rt_handle) (w idx : Nat) (cp : List Nat) : List Nat :=
  if h.rtm_addrs &&& w ≠ 0 then
    let l := SA_SIZE T (ss_len h idx)
    cp ++ so_bytes h (so_off idx) l
  else cp

/-- The payload that the six `NEXTADDR` lines of `fill_rtmsg` move into `m_space`. -/
def fill_payload (T : Target) (h : rt_handle) : List Nat :=
  let cp := []
  let cp := NEXTADDR T h RTA_DST RTAX_DST cp
  let cp := NEXTADDR T h RTA_GATEWAY RTAX_GATEWAY cp
  let cp := NEXTADDR T h RTA_NETMASK RTAX_NETMASK cp
  let cp := NEXTADDR T h RTA_GENMASK RTAX_GENMASK cp
  let cp := NEXTADDR T h RTA_IFP RTAX_IFP cp
  let cp := NEXTADDR T h RTA_IFA RTAX_IFA cp
  cp

/-- `fill_rtmsg`. The message is zeroed, the header fields are assigned, the present slots
are moved to `m_space` in role order, and `rtm_msglen` is the distance from the start of the
message to `cp`. `rtm_seq` is an automatic variable initialised to 0 and pre-incremented;
`rt_metrics` and `rtm_inits` are static and never assigned, hence zero. The source does not
compare `cp` with the end of `m_space`; the bytes moved are kept here as they are, followed
by what is left of the zeroed `m_space`. -/
def fill_rtmsg (T : Target) (h : rt_handle) (operation flags : Nat) : rt_msg_t :=
  let rtm_seq : Int := 0
  let rtm_seq := rtm_seq + 1
  let cp := fill_payload T h
  { m_rtm :=
      { rtm_type := operation % 256
        rtm_flags := flags
        rtm_version := T.RTM_VERSION % 256
        rtm_seq := rtm_seq
        rtm_addrs := h.rtm_addrs
        rtm_inits := 0
        rtm_msglen := (T.sizeof_rt_msghdr + cp.length) % 65536 }
    m_space := cp ++ List.replicate (sizeof_m_space - cp.length) 0 }

/-- Conversion of a value to `int`: reduction to 32 bits, two's complement. -/
def to_int (v : Int) : Int :=
  if v % 2 ^ 32 < 2 ^ 31 then v % 2 ^ 32 else v % 2 ^ 32 - 2 ^ 32

/-- A value that an `int` holds. -/
def fits_int (v : Int) : Prop := -2 ^ 31 ≤ v ∧ v < 2 ^ 31

/-- A system call on the control socket, as `libroute_modify` issues it. -/
inductive Syscall where
  | write (msg : rt_msg_t) (len : Nat)
  | read (size : Nat)
  deriving DecidableEq, Repr

/-- What `libroute_modify` leaves behind: the value returned, the handle, the message buffer
and the system calls issued, in order. -/
structure ModifyResult where
  ret : Int
  handle : rt_handle
  rtmsg : rt_msg_t
  sent : rt_msg_t
  trace : List Syscall

/-- `libroute_modify`. `wr` is the outcome of `write`, `rd` the outcome of `read` and `reply`
the message that `read` stores in the buffer; `sa_gateway = none` is the `NULL` gateway. The
value of each call is stored in `int result` before it is compared with 0. -/
def libroute_modify (T : Target) (h : rt_handle) (sa_dest : sockaddr)
    (sa_gateway : Option sockaddr) (operation flags : Nat)
    (wr rd : SysResult) (reply : rt_msg_t) : ModifyResult :=
  let h := fillso h RTAX_DST sa_dest
  let h := match sa_gateway with
    | some g => fillso h RTAX_GATEWAY g
    | none => h
  let h :=
    if operation = T.RTM_GET then
      if ss_family h RTAX_IFP = 0 then
        let so := memcpy h.so (so_off RTAX_IFP + 1) [T.AF_LINK % 256] 1
        let so := memcpy so (so_off RTAX_IFP) [T.sizeof_sockaddr_dl % 256] 1
        { h with so := so, rtm_addrs := h.rtm_addrs ||| RTA_IFP }
      else h
    else h
  let rtmsg := fill_rtmsg T h operation flags
  let len := rtmsg.m_rtm.rtm_msglen
  let tr := [Syscall.write rtmsg len]
  let result := to_int wr.result
  if result < 0 then
    { ret := -1, handle := { h with errcode := wr.errno }, rtmsg := rtmsg, sent := rtmsg,
      trace := tr }
  else if operation = T.RTM_GET then
    let tr := tr ++ [Syscall.read (T.sizeof_rt_msghdr + sizeof_m_space)]
    let result := to_int rd.result
    if result < 0 then
      { ret := -1, handle := { h with errcode := rd.errno }, rtmsg := reply, sent := rtmsg,
        trace := tr }
    else { ret := 0, handle := h, rtmsg := reply, sent := rtmsg, trace := tr }
  else { ret := 0, handle := h, rtmsg := rtmsg, sent := rtmsg, trace := tr }

/-- The flags of add, change and delete: `RTF_STATIC | RTF_UP | RTF_HOST | RTF_GATEWAY`. -/
def flags_gw (T : Target) : Nat :=
  ((T.RTF_STATIC ||| T.RTF_UP) ||| T.RTF_HOST) ||| T.RTF_GATEWAY

/-- The flags of get: `RTF_STATIC | RTF_UP | RTF_HOST`. -/
def flags_get (T : Target) : Nat := (T.RTF_STATIC ||| T.RTF_UP) ||| T.RTF_HOST

/-- `libroute_add`. -/
def libroute_add (T : Target) (h : rt_handle) (dest : sockaddr) (gateway : Option sockaddr)
    (wr rd : SysResult) (reply : rt_msg_t) : ModifyResult :=
  libroute_modify T h dest gateway T.RTM_ADD (flags_gw T) wr rd reply

/-- `libroute_change`. -/
def libroute_change (T : Target) (h : rt_handle) (dest : sockaddr) (gateway : Option sockaddr)
    (wr rd : SysResult) (reply : rt_msg_t) : ModifyResult :=
  libroute_modify T h dest gateway T.RTM_CHANGE (flags_gw T) wr rd reply

/-- `libroute_del`. -/
def libroute_del (T : Target) (h : rt_handle) (dest : sockaddr)
    (wr rd : SysResult) (reply : rt_msg_t) : ModifyResult :=
  libroute_modify T h dest none T.RTM_DELETE (flags_gw T) wr rd reply

/-- `libroute_get`. -/
def libroute_get (T : Target) (h : rt_handle) (dest : sockaddr)
    (wr rd : SysResult) (reply : rt_msg_t) : ModifyResult :=
  libroute_modify T h dest none T.RTM_GET (flags_get T) wr rd reply

/-! ## Sessions: sequences of requests -/

/-- A call of one of the four request functions of the library. -/
inductive Request where
  | add (dest : sockaddr) (gateway : Option sockaddr)
  | change (dest : sockaddr) (gateway : Option sockaddr)
  | del (dest : sockaddr)
  | get (dest : sockaddr)
  deriving DecidableEq, Repr

/-- A request together with what the control socket answers to it. -/
structure Exchange where
  req : Request
  wr : SysResult
  rd : SysResult
  reply : rt_msg_t

/-- Runs one request on the handle. -/
def perform (T : Target) (h : rt_handle) (e : Exchange) : ModifyResult :=
  match e.req with
  | .add d g => libroute_add T h d g e.wr e.rd e.reply
  | .change d g => libroute_change T h d g e.wr e.rd e.reply
  | .del d => libroute_del T h d e.wr e.rd e.reply
  | .get d => libroute_get T h d e.wr e.rd e.reply

/-- Runs the requests one after the other on the same handle. -/
def session (T : Target) : rt_handle → List Exchange → List ModifyResult
  | _, [] => []
  | h, e :: es => perform T h e :: session T (perform T h e).handle es

/-- The role indices that a request assigns: the destination always, the gateway when one is
given, and for a lookup the interface pointer, which the library fills in. -/
def Request.roles : Request → List Nat
  | .add _ (some _) => [RTAX_DST, RTAX_GATEWAY]
  | .add _ none => [RTAX_DST]
  | .change _ (some _) => [RTAX_DST, RTAX_GATEWAY]
  | .change _ none => [RTAX_DST]
  | .del _ => [RTAX_DST]
  | .get _ => [RTAX_DST, RTAX_IFP]

/-- The role indices assigned by a sequence of requests. -/
def roles_written (es : List Exchange) : List Nat :=
  (es.map (fun e => e.req.roles)).flatten

/-! ## memstress.c: the histogram -/

/-- The macro `ONEMS`: one millisecond in nanoseconds. -/
def ONEMS : Nat := 1000000

/-- The array `bucketcuts` of `routestress`. -/
def bucketcuts : List Nat :=
  [ONEMS, 2 * ONEMS, 3 * ONEMS, 4 * ONEMS, 5 * ONEMS, 6 * ONEMS, 7 * ONEMS, 8 * ONEMS,
    9 * ONEMS, 10 * ONEMS, 100 * ONEMS]

/-- The array `bucketlabels` of `routestress`. -/
def bucketlabels : List String :=
  ["1ms", "2ms", "3ms", "4ms", "5ms", "6ms", "7ms", "8ms", "9ms", "10ms", "100ms"]

/-- `b[i]++` on an array of `uint64_t`. -/
def bump (b : List Nat) (i : Nat) : List Nat := b.set i ((b.getD i 0 + 1) % 2 ^ 64)

/-- The `for` loop of `histstore` from index `i` on, with `n` indices left before 11: the
first bucket whose cut exceeds `value` is incremented and the loop is left. -/
def histstore_loop (bc b : List Nat) (value : Nat) : Nat → Nat → List Nat
  | _, 0 => b
  | i, n + 1 =>
    if value < bc.getD i 0 then bump b i
    else histstore_loop bc b value (i + 1) n

/-- `histstore`. -/
def histstore (bc b : List Nat) (value : Nat) : List Nat :=
  if value ≥ bc.getD 10 0 then bump b 10
  else histstore_loop bc b value 0 11

/-- The loop of `histprint` over the indices in `is`: the lines printed and `total`, an `int`
to which the 64-bit counts are added. -/
def histprint_loop (labels : List String) (b : List Nat) :
    List Nat → List (String × Nat) × Int → List (String × Nat) × Int
  | [], acc => acc
  | i :: is, acc =>
    histprint_loop labels b is
      (acc.1 ++ [(labels.getD i "", b.getD i 0)],
        to_int ((acc.2 + (b.getD i 0 : Int)) % 2 ^ 64))

/-- `histprint`: one line per bucket and the total. -/
def histprint (labels : List String) (b : List Nat) : List (String × Nat) × Int :=
  histprint_loop labels b (List.range 11) ([], 0)

/-! ## memstress.c: the route load generator -/

/-- A `struct timespec`. -/
structure timespec where
  tv_sec : Int
  tv_nsec : Int
  deriving DecidableEq, Repr

/-- The macro `timespecsub` of `<sys/time.h>`: the difference, with the nanoseconds brought
back into range by a borrow. -/
def timespecsub (tsp usp : timespec) : timespec :=
  let sec := tsp.tv_sec - usp.tv_sec
  let nsec := tsp.tv_nsec - usp.tv_nsec
  if nsec < 0 then { tv_sec := sec - 1, tv_nsec := nsec + 1000000000 }
  else { tv_sec := sec, tv_nsec := nsec }

/-- The sixteen bytes of a `struct sockaddr_in` for the address with the four octets given. -/
def sockaddr_in (T : Target) (addr : List Nat) : sockaddr :=
  [T.sizeof_sockaddr_in % 256, T.AF_INET % 256, 0, 0] ++ addr ++ List.replicate 8 0

/-- `str_to_sockaddr` on a text that `inet_aton` accepts, the text being given by the octets
of the address it denotes; the allocation is taken to succeed. -/
def str_to_sockaddr (T : Target) (addr : List Nat) : sockaddr := sockaddr_in T addr

/-- The address that the text printed by `snprintf(buf, sizeof(buf), "10.%d.%d.%d", a, b, c)`
denotes, as its four octets; for counts up to 254 the text fits `buf`. -/
def dest_addr (a b c : Nat) : List Nat := [10, a, b, c]

/-- The gateway of `routestress`, 1.0.0.1. -/
def gateway_addr : List Nat := [1, 0, 0, 1]

/-- A call of the library made by `routestress`, named by the addresses printed for it, with
the value it returned. -/
inductive Call where
  | add (dest gateway : List Nat) (ret : Int)
  | del (dest : List Nat) (ret : Int)
  deriving DecidableEq, Repr

/-- What the system answers to `routestress`: the outcome of `socket` and `setsockopt` in
`libroute_open`, of the k-th `write` on the control socket, of the k-th `sysctlbyname` with
the free page count it stores, and the time at the k-th `timespec_get`. -/
structure Env where
  socket : SysResult
  setsockopt : SysResult
  write : Nat → SysResult
  sysctl : Nat → SysResult × Int
  clock : Nat → timespec

/-- The state of a run: the session, how many calls of each kind were made, the library calls
made, the system calls that the library issued on the control socket, the histogram, the two
counters, and what `histprint` printed. -/
structure World where
  handle : rt_handle
  nwrite : Nat
  nsysctl : Nat
  nclock : Nat
  calls : List Call
  sock : List Syscall
  buckets : List Nat
  veto_count : Int
  failure_count : Int
  printed : Option (List (String × Nat) × Int)

/-- `vm_veto`: reads the free page count (0 when the read fails) and counts a veto when it is
below `target`. -/
def vm_veto (env : Env) (target : Int) (w : World) : Bool × World :=
  let r := env.sysctl w.nsysctl
  let free_pages : Int := if r.1.result = -1 then 0 else r.2
  let w := { w with nsysctl := w.nsysctl + 1 }
  if free_pages ≥ target then (false, w)
  else (true, { w with veto_count := w.veto_count + 1 })

/-- A `for (int i = lo; ...; i++)` loop making `n` rounds; a round that ends the process
(`Except.error`) ends the loop. -/
def forLoop {σ : Type} (body : Nat → σ → Except σ σ) : Nat → Nat → σ → Except σ σ
  | _, 0, s => .ok s
  | lo, n + 1, s =>
    match body lo s with
    | .ok s1 => forLoop body (lo + 1) n s1
    | .error e => .error e

/-- The body of the innermost loop of the fill phase: `libroute_add` of `10.z.y.x` via the
gateway; `err(1, ...)` on the result -1 ends the process. The state keeps the system calls
that the library issued for the call (`sock`), and the call by the address printed into
`buf` with the value returned (`calls`). -/
def add_route (T : Target) (env : Env) (sa_gateway : sockaddr) (gw : List Nat) (z y x : Nat)
    (w : World) : Except World World :=
  let sa_dest := str_to_sockaddr T (dest_addr z y x)
  let r := libroute_add T w.handle sa_dest (some sa_gateway) (env.write w.nwrite) ⟨0, 0⟩
    { m_rtm := ⟨0, 0, 0, 0, 0, 0, 0⟩, m_space := [] }
  let w := { w with
    handle := r.handle, nwrite := w.nwrite + 1
    calls := w.calls ++ [Call.add (dest_addr z y x) gw r.ret]
    sock := w.sock ++ r.trace }
  if r.ret = -1 then .error w else .ok w

/-- The body of the `y` loop of the fill phase: the veto poll, the timed `x` loop from 2 to
`xroutes`, and the store of `(uint64_t)elapsed.tv_nsec` in the histogram. The line printed
when `elapsed.tv_sec > 0` changes no state and is left out. -/
def fill_batch (T : Target) (env : Env) (sa_gateway : sockaddr) (gw : List Nat) (veto : Int)
    (xroutes z y : Nat) (w : World) : Except World World :=
  let w := (vm_veto env veto w).2
  let start := env.clock w.nclock
  let w := { w with nclock := w.nclock + 1 }
  match forLoop (add_route T env sa_gateway gw z y) 2 (xroutes - 2) w with
  | .error e => .error e
  | .ok w =>
    let end_ts := env.clock w.nclock
    let w := { w with nclock := w.nclock + 1 }
    let elapsed := timespecsub end_ts start
    .ok { w with buckets := histstore bucketcuts w.buckets (elapsed.tv_nsec % 2 ^ 64).toNat }

/-- The body of the innermost loop of the flush phase: `libroute_del` of `10.z.x.y`, with the
same two records of the call as in the fill phase. -/
def del_route (T : Target) (env : Env) (z x y : Nat) (w : World) : Except World World :=
  let sa_dest := str_to_sockaddr T (dest_addr z x y)
  let r := libroute_del T w.handle sa_dest (env.write w.nwrite) ⟨0, 0⟩
    { m_rtm := ⟨0, 0, 0, 0, 0, 0, 0⟩, m_space := [] }
  let w := { w with
    handle := r.handle, nwrite := w.nwrite + 1
    calls := w.calls ++ [Call.del (dest_addr z x y) r.ret]
    sock := w.sock ++ r.trace }
  if r.ret = -1 then .error w else .ok w

/-- The state in which `routestress` starts, with the handle that `libroute_open` gave. -/
def World.init (h : rt_handle) : World :=
  { handle := h, nwrite := 0, nsysctl := 0, nclock := 0, calls := [], sock := [],
    buckets := List.replicate 11 0, veto_count := 0, failure_count := 0, printed := none }

/-- `routestress`. `Except.error` is the end of the process by `err(1, ...)`, with the state
reached; `Except.ok` is the return. The counts are not negative (`strtonum` in `main`). The
flag `wait` only makes the run pause for a key between the two phases, and the lines printed
other than the histogram change no state; both are left out. -/
def routestress (T : Target) (env : Env) (printhist : Bool) (veto : Int)
    (xroutes yroutes zroutes : Nat) : Except World World :=
  match libroute_open 0 env.socket env.setsockopt with
  | none => .error (World.init rt_handle.zero)
  | some handle =>
    let w := World.init handle
    let gw := gateway_addr
    let sa_gateway := str_to_sockaddr T gw
    match forLoop (fun z => forLoop (fill_batch T env sa_gateway gw veto xroutes z) 0 yroutes)
        0 zroutes w with
    | .error e => .error e
    | .ok w =>
      match forLoop (fun z => forLoop (fun x => forLoop (del_route T env z x) 2 (yroutes - 2))
          0 xroutes) 0 zroutes w with
      | .error e => .error e
      | .ok w =>
        if printhist then .ok { w with printed := some (histprint bucketlabels w.buckets) }
        else .ok w

/-! ## Definitions used to state the claims -/

/-- The bucket that a value belongs to: the least index whose bound exceeds the value, and
the last index, 10, when no bound does. -/
def bucket_of (v : Nat) : Nat :=
  ((List.range 11).find? (fun i => decide (v < bucketcuts.getD i 0))).getD 10

/-- The bucket index in closed form. -/
def bucket_steps (v : Nat) : Nat :=
  if v < 1000000 then 0 else if v < 2000000 then 1 else if v < 3000000 then 2
  else if v < 4000000 then 3 else if v < 5000000 then 4 else if v < 6000000 then 5
  else if v < 7000000 then 6 else if v < 8000000 then 7 else if v < 9000000 then 8
  else if v < 10000000 then 9 else 10

/-- The values that the counter of a `for` loop from `lo` takes in `n` rounds. -/
def span : Nat → Nat → List Nat
  | _, 0 => []
  | lo, n + 1 => lo :: span (lo + 1) n

/-- The destinations of the fill phase in the order of the claim: `10.z.y.x` for `z` below
`zroutes`, `y` below `yroutes` and `x` from 2 below `xroutes`, `z` outermost. -/
def fill_dests (xroutes yroutes zroutes : Nat) : List (List Nat) :=
  (List.range zroutes).flatMap fun z =>
    (List.range yroutes).flatMap fun y =>
      ((List.range xroutes).drop 2).map fun x => [10, z, y, x]

/-- The destinations of the flush phase in the order of the claim: `10.z.x.y` for `z` below
`zroutes`, `x` below `xroutes` and `y` from 2 below `yroutes`, `z` outermost. -/
def flush_dests (xroutes yroutes zroutes : Nat) : List (List Nat) :=
  (List.range zroutes).flatMap fun z =>
    (List.range xroutes).flatMap fun x =>
      ((List.range yroutes).drop 2).map fun y => [10, z, x, y]

/-- A library call that `routestress` is about to make. -/
inductive Plan where
  | add (dest gateway : List Nat)
  | del (dest : List Nat)
  deriving DecidableEq, Repr

/-- The call made, with the value it returned. -/
def Plan.call : Plan → Int → Call
  | .add d g, r => Call.add d g r
  | .del d, r => Call.del d r

/-- The run that makes the planned calls in order, after the calls `cs` and with the next
call on the `n`-th `write`: it ends with the first call whose `write` has, as an `int`, a
negative result
(`Except.error`, with the calls made), and otherwise makes them all (`Except.ok`, with the
calls made and the number of the next `write`). -/
def expect (env : Env) : List Call → Nat → List Plan →
    Except (List Call) (List Call × Nat)
  | cs, n, [] => .ok (cs, n)
  | cs, n, p :: ps =>
    if to_int (env.write n).result < 0 then .error (cs ++ [p.call (-1)])
    else expect env (cs ++ [p.call 0]) (n + 1) ps

/-- What is observed of a run: the calls made, and when it returned the number of the next
`write`. -/
def view (r : Except World World) : Except (List Call) (List Call × Nat) :=
  match r with
  | .ok w => .ok (w.calls, w.nwrite)
  | .error w => .error w.calls

/-- A part of the run makes the planned calls `seg`: from every state it does what `expect`
says. -/
def realises (env : Env) (F : World → Except World World) (seg : List Plan) : Prop :=
  ∀ w, view (F w) = expect env w.calls w.nwrite seg

/-- The calls that `routestress` plans: the adds of the fill phase, then the deletes of the
flush phase. -/
def plan (xroutes yroutes zroutes : Nat) : List Plan :=
  (fill_dests xroutes yroutes zroutes).map (fun d => Plan.add d gateway_addr)
    ++ (flush_dests xroutes yroutes zroutes).map Plan.del

/-- The destinations of the adds among the calls. -/
def adds_of (cs : List Call) : List (List Nat) :=
  cs.filterMap fun c => match c with
    | .add d _ _ => some d
    | .del _ _ => none

/-- The destinations of the deletes among the calls. -/
def dels_of (cs : List Call) : List (List Nat) :=
  cs.filterMap fun c => match c with
    | .add _ _ _ => none
    | .del d _ => some d

/-- The adds among the calls that returned 0. -/
def good_adds (cs : List Call) : List Call :=
  cs.filter fun c => match c with
    | .add _ _ r => decide (r = 0)
    | .del _ _ => false

/-- The calls of a run, whether it returned or ended the process. -/
def calls_of (r : Except World World) : List Call :=
  match r with
  | .ok w => w.calls
  | .error w => w.calls

/-- A system on which `socket` gives descriptor 3 and every call succeeds; the clock advances
by one second and five milliseconds per reading. -/
def env_good : Env :=
  { socket := ⟨3, 0⟩, setsockopt := ⟨0, 0⟩, write := fun _ => ⟨168, 0⟩,
    sysctl := fun _ => (⟨0, 0⟩, 1000), clock := fun k => ⟨k, 5000000 * k⟩ }

/-- The same system, on which the third `write` fails with `errno` 17. -/
def env_third_fails : Env :=
  { env_good with write := fun k => if k = 2 then ⟨-1, 17⟩ else ⟨168, 0⟩ }

/-- Slot `i` is present when bit `i` of the presence bitmask is set. -/
def present (h : rt_handle) (i : Nat) : Bool := h.rtm_addrs.testBit i

/-- Size that slot `i` takes in the payload. -/
def slot_size (T : Target) (h : rt_handle) (i : Nat) : Nat :=
  if present h i then SA_SIZE T (ss_len h i) else 0

/-- Sum of the serialized sizes of the present slots among the six roles. -/
def present_sizes (T : Target) (h : rt_handle) : Nat :=
  (((List.range 6).filter (fun i => present h i)).map (fun i => SA_SIZE T (ss_len h i))).sum

/-- The handle as `libroute_modify` has it when it calls `fill_rtmsg`. -/
def prepared (T : Target) (h : rt_handle) (sa_dest : sockaddr) (sa_gateway : Option sockaddr)
    (operation : Nat) : rt_handle :=
  let h := fillso h RTAX_DST sa_dest
  let h := match sa_gateway with
    | some g => fillso h RTAX_GATEWAY g
    | none => h
  if operation = T.RTM_GET then
    if ss_family h RTAX_IFP = 0 then
      let so := memcpy h.so (so_off RTAX_IFP + 1) [T.AF_LINK % 256] 1
      let so := memcpy so (so_off RTAX_IFP) [T.sizeof_sockaddr_dl % 256] 1
      { h with so := so, rtm_addrs := h.rtm_addrs ||| RTA_IFP }
    else h
  else h

/-- Handle after the two `fillso` calls of `libroute_modify`. -/
def filled (h : rt_handle) (d : sockaddr) (g : Option sockaddr) : rt_handle :=
  match g with
  | some g => fillso (fillso h RTAX_DST d) RTAX_GATEWAY g
  | none => fillso h RTAX_DST d

/-- Either the interface-pointer slot has family zero or its presence bit is set. -/
def ifp_inv (h : rt_handle) : Prop :=
  ss_family h RTAX_IFP = 0 ∨ h.rtm_addrs.testBit RTAX_IFP = true

/-- A session as `libroute_open` returns it when the socket is descriptor 3. -/
def opened : rt_handle := { rt_handle.zero with s := 3 }

/-- An exchange in which `write` and `read` succeed. -/
def Exchange.good (r : Request) : Exchange :=
  { req := r, wr := ⟨0, 0⟩, rd := ⟨0, 0⟩,
    reply := { m_rtm := ⟨0, 0, 0, 0, 0, 0, 0⟩, m_space := [] } }

/-- Bytes that slot `i` contributes to the payload. -/
def slot_seg (T : Target) (h : rt_handle) (i : Nat) : List Nat :=
  if h.rtm_addrs.testBit i = true then so_bytes h (so_off i) (SA_SIZE T (ss_len h i)) else []

/-- The elapsed time between two readings of the clock as one number of nanoseconds. -/
def duration_ns (start stop : timespec) : Int :=
  (stop.tv_sec - start.tv_sec) * 1000000000 + (stop.tv_nsec - start.tv_nsec)

/-- The value that a batch passes to `histstore` for the two readings of the clock:
`(uint64_t)elapsed.tv_nsec` after `timespecsub`. -/
def recorded_ns (start stop : timespec) : Nat :=
  ((timespecsub stop start).tv_nsec % 2 ^ 64).toNat

/-- The histogram of a run, whether it returned or ended the process. -/
def buckets_of (r : Except World World) : List Nat :=
  match r with
  | .ok w => w.buckets
  | .error w => w.buckets

/-- The sixteen bytes of an IPv4 socket address in a message: length 16, family, port 0, the
four octets, and eight bytes of padding. -/
def wire_sin (T : Target) (a : List Nat) : List Nat :=
  [16, T.AF_INET % 256, 0, 0] ++ a ++ [0, 0, 0, 0, 0, 0, 0, 0]

/-- The header of a message of `routestress`: the type, the presence bitmask and the length
given, the flags `RTF_STATIC | RTF_UP | RTF_HOST | RTF_GATEWAY`, and sequence number 1. -/
def wire_hdr (T : Target) (ty addrs len : Nat) : rt_msghdr :=
  { rtm_msglen := len
    rtm_version := T.RTM_VERSION % 256
    rtm_type := ty
    rtm_flags := ((T.RTF_STATIC ||| T.RTF_UP) ||| T.RTF_HOST) ||| T.RTF_GATEWAY
    rtm_addrs := addrs
    rtm_seq := 1
    rtm_inits := 0 }

/-- The message of the add of destination `d` via 1.0.0.1: both records, 32 bytes of
payload. -/
def add_msg (T : Target) (d : List Nat) : rt_msg_t :=
  { m_rtm := wire_hdr T (T.RTM_ADD % 256) 3 (T.sizeof_rt_msghdr + 32)
    m_space := wire_sin T d ++ wire_sin T [1, 0, 0, 1] ++ List.replicate 480 0 }

/-- The message of the delete of destination `d`. When an add was made before on the session
(`gw`), the gateway slot is still present and the message carries 1.0.0.1 as well. -/
def del_msg (T : Target) (gw : Bool) (d : List Nat) : rt_msg_t :=
  if gw then
    { m_rtm := wire_hdr T (T.RTM_DELETE % 256) 3 (T.sizeof_rt_msghdr + 32)
      m_space := wire_sin T d ++ wire_sin T [1, 0, 0, 1] ++ List.replicate 480 0 }
  else
    { m_rtm := wire_hdr T (T.RTM_DELETE % 256) 1 (T.sizeof_rt_msghdr + 16)
      m_space := wire_sin T d ++ List.replicate 496 0 }

/-- The `write` of a message with its `rtm_msglen` as length. -/
def write_of (m : rt_msg_t) : Syscall := Syscall.write m m.m_rtm.rtm_msglen

/-- The system calls on the control socket for the planned calls when every one succeeds;
`gw` tells whether an add was made before. -/
def wire_of (T : Target) : Bool → List Plan → List Syscall
  | _, [] => []
  | _, Plan.add d _ :: ps => write_of (add_msg T d) :: wire_of T true ps
  | gw, Plan.del d :: ps => write_of (del_msg T gw d) :: wire_of T gw ps

/-- Whether an add is among the planned calls. -/
def has_add : List Plan → Bool
  | [] => false
  | Plan.add _ _ :: _ => true
  | Plan.del _ :: ps => has_add ps

/-- The state of the slots during a run of `routestress`: only the destination and gateway
bits can be set, the gateway bit is set when an add was made (`gw`), and then the gateway
slot holds 1.0.0.1. -/
def gw_inv (T : Target) (h : rt_handle) (gw : Bool) : Prop :=
  h.rtm_addrs ≤ 3 ∧ h.rtm_addrs.testBit 1 = gw
    ∧ (gw = true → ∀ k, k < 16 → h.so (128 + k) = (wire_sin T [1, 0, 0, 1]).getD k 0)

/-- A part of the run issues on the control socket the system calls of the planned calls
`seg`, all of them succeeding. -/
def wire_ok (T : Target) (F : World → Except World World) (seg : List Plan) : Prop :=
  ∀ w gw, gw_inv T w.handle gw →
    ∃ w1, F w = .ok w1 ∧ w1.sock = w.sock ++ wire_of T gw seg
      ∧ gw_inv T w1.handle (gw || has_add seg)

/-- The IPv4 address of the first record of the payload of a message: bytes 4 to 7. -/
def sent_dest (m : rt_msg_t) : List Nat := (m.m_space.drop 4).take 4

/-- The destinations of the messages of type `ty` written on the control socket. -/
def wire_dests (ty : Nat) (sock : List Syscall) : List (List Nat) :=
  sock.filterMap fun c => match c with
    | .write m _ => if m.m_rtm.rtm_type = ty then some (sent_dest m) else none
    | .read _ => none

/-- The system calls of a run, whether it returned or ended the process. -/
def sock_of (r : Except World World) : List Syscall :=
  match r with
  | .ok w => w.sock
  | .error w => w.sock

/-! ## Lemmas on the encoder -/

theorem and_shift_ne_zero (a i : Nat) : a &&& (1 <<< i) ≠ 0 ↔ a.testBit i = true := by
  rw [Nat.one_shiftLeft]
  constructor
  · intro h
    by_contra hb
    apply h
    apply Nat.eq_of_testBit_eq
    intro j
    rw [Nat.testBit_and, Nat.testBit_two_pow, Nat.zero_testBit]
    by_cases hij : i = j
    · subst hij; simp [hb]
    · simp [hij]
  · intro hb h
    have := congrArg (fun n => n.testBit i) h
    simp [Nat.testBit_two_pow, hb] at this

theorem SA_SIZE_le (T : Target) (hT : T.wf) (len : Nat) (hl : len < 256) :
    SA_SIZE T len ≤ 256 := by
  unfold SA_SIZE
  rcases hT.long with h | h <;> rw [h] <;> split <;> omega

theorem so_bytes_length (h : rt_handle) (off n : Nat) : (so_bytes h off n).length = n := by
  simp [so_bytes]

theorem NEXTADDR_length (T : Target) (h : rt_handle) (i : Nat) (cp : List Nat) :
    (NEXTADDR T h (1 <<< i) i cp).length = cp.length + slot_size T h i := by
  unfold NEXTADDR slot_size present
  by_cases hb : h.rtm_addrs.testBit i = true
  · have := (and_shift_ne_zero h.rtm_addrs i).2 hb
    simp [this, hb, so_bytes_length]
  · have : ¬ (h.rtm_addrs &&& (1 <<< i) ≠ 0) := fun hc => hb ((and_shift_ne_zero _ _).1 hc)
    simp only [this, if_false]
    simp [hb]

theorem fill_payload_length (T : Target) (h : rt_handle) :
    (fill_payload T h).length =
      slot_size T h 0 + slot_size T h 1 + slot_size T h 2 + slot_size T h 3
        + slot_size T h 4 + slot_size T h 5 := by
  simp only [fill_payload, RTA_DST, RTA_GATEWAY, RTA_NETMASK, RTA_GENMASK, RTA_IFP, RTA_IFA,
    RTAX_DST, RTAX_GATEWAY, RTAX_NETMASK, RTAX_GENMASK, RTAX_IFP, RTAX_IFA, NEXTADDR_length,
    List.length_nil]
  omega

theorem slot_size_le (T : Target) (hT : T.wf) (h : rt_handle) (i : Nat) :
    slot_size T h i ≤ 256 := by
  unfold slot_size
  split
  · exact SA_SIZE_le T hT _ (Nat.mod_lt _ (by decide))
  · omega

theorem sum_filter_map (p : Nat → Bool) (f : Nat → Nat) (l : List Nat) :
    ((l.filter p).map f).sum = (l.map (fun i => if p i then f i else 0)).sum := by
  induction l with
  | nil => rfl
  | cons a t ih =>
    by_cases ha : p a = true
    · simp [List.filter_cons, ha, ih]
    · simp [List.filter_cons, ha, ih]

theorem present_sizes_eq (T : Target) (h : rt_handle) :
    present_sizes T h =
      slot_size T h 0 + slot_size T h 1 + slot_size T h 2 + slot_size T h 3
        + slot_size T h 4 + slot_size T h 5 := by
  have hr : List.range 6 = [0, 1, 2, 3, 4, 5] := by decide
  unfold present_sizes
  rw [sum_filter_map, hr]
  simp only [List.map_cons, List.map_nil, List.sum_cons, List.sum_nil, slot_size]
  omega

/-! ## Lemmas on the request exchange -/

theorem libroute_modify_sent (T : Target) (h : rt_handle) (d : sockaddr) (g : Option sockaddr)
    (op fl : Nat) (wr rd : SysResult) (reply : rt_msg_t) :
    (libroute_modify T h d g op fl wr rd reply).sent = fill_rtmsg T (prepared T h d g op) op fl := by
  simp only [libroute_modify, prepared]
  split_ifs <;> rfl

theorem libroute_modify_addrs (T : Target) (h : rt_handle) (d : sockaddr) (g : Option sockaddr)
    (op fl : Nat) (wr rd : SysResult) (reply : rt_msg_t) :
    (libroute_modify T h d g op fl wr rd reply).handle.rtm_addrs
      = (prepared T h d g op).rtm_addrs := by
  simp only [libroute_modify, prepared]
  split_ifs <;> rfl

theorem libroute_modify_so (T : Target) (h : rt_handle) (d : sockaddr) (g : Option sockaddr)
    (op fl : Nat) (wr rd : SysResult) (reply : rt_msg_t) :
    (libroute_modify T h d g op fl wr rd reply).handle.so = (prepared T h d g op).so := by
  simp only [libroute_modify, prepared]
  split_ifs <;> rfl

theorem sa_len_lt (sa : sockaddr) : sa_len sa < 256 := Nat.mod_lt _ (by decide)

theorem fillso_so_far (h : rt_handle) (idx : Nat) (sa : sockaddr) (j : Nat)
    (hj : so_off idx + 256 ≤ j) : (fillso h idx sa).so j = h.so j := by
  have := sa_len_lt sa
  simp only [fillso, memcpy]
  rw [if_neg (by omega)]

theorem fillso_so_below (h : rt_handle) (idx : Nat) (sa : sockaddr) (j : Nat)
    (hj : j < so_off idx) : (fillso h idx sa).so j = h.so j := by
  simp only [fillso, memcpy]
  rw [if_neg (by omega)]

theorem fillso_testBit (h : rt_handle) (idx : Nat) (sa : sockaddr) (i : Nat) :
    (fillso h idx sa).rtm_addrs.testBit i = (h.rtm_addrs.testBit i || decide (idx = i)) := by
  simp [fillso, Nat.one_shiftLeft, Nat.testBit_two_pow]

theorem filled_testBit (h : rt_handle) (d : sockaddr) (g : Option sockaddr) (i : Nat) :
    (filled h d g).rtm_addrs.testBit i
      = (h.rtm_addrs.testBit i || decide (i = 0) || (g.isSome && decide (i = 1))) := by
  cases g with
  | none => simp [filled, fillso_testBit, RTAX_DST, eq_comm]
  | some g => simp [filled, fillso_testBit, RTAX_DST, RTAX_GATEWAY, eq_comm]

theorem filled_so_far (h : rt_handle) (d : sockaddr) (g : Option sockaddr) (j : Nat)
    (hj : 384 ≤ j) : (filled h d g).so j = h.so j := by
  cases g with
  | none =>
    exact fillso_so_far h RTAX_DST d j (by simp [so_off, RTAX_DST]; omega)
  | some g =>
    simp only [filled]
    rw [fillso_so_far _ RTAX_GATEWAY g j
      (by simp [so_off, RTAX_GATEWAY, sizeof_sockaddr_storage]; omega)]
    exact fillso_so_far h RTAX_DST d j (by simp [so_off, RTAX_DST]; omega)

theorem prepared_eq (T : Target) (h : rt_handle) (d : sockaddr) (g : Option sockaddr)
    (op : Nat) :
    prepared T h d g op =
      if op = T.RTM_GET ∧ ss_family (filled h d g) RTAX_IFP = 0 then
        { filled h d g with
          so := memcpy (memcpy (filled h d g).so (so_off RTAX_IFP + 1) [T.AF_LINK % 256] 1)
            (so_off RTAX_IFP) [T.sizeof_sockaddr_dl % 256] 1
          rtm_addrs := (filled h d g).rtm_addrs ||| RTA_IFP }
      else filled h d g := by
  cases g <;> simp only [prepared, filled] <;> split_ifs <;> simp_all

theorem ss_family_filled (h : rt_handle) (d : sockaddr) (g : Option sockaddr) :
    ss_family (filled h d g) RTAX_IFP = ss_family h RTAX_IFP := by
  unfold ss_family
  rw [filled_so_far h d g _ (by simp [so_off, RTAX_IFP, sizeof_sockaddr_storage])]

theorem testBit_RTA_IFP (i : Nat) : RTA_IFP.testBit i = decide (i = 4) := by
  have h : RTA_IFP = 2 ^ 4 := rfl
  rw [h, Nat.testBit_two_pow]
  by_cases hi : i = 4
  · subst hi; rfl
  · have : ¬ (4 = i) := fun hc => hi hc.symm
    simp only [this, hi]

theorem prepared_testBit_get (T : Target) (h : rt_handle) (d : sockaddr) (g : Option sockaddr)
    (hi : ifp_inv h) (i : Nat) :
    (prepared T h d g T.RTM_GET).rtm_addrs.testBit i
      = (h.rtm_addrs.testBit i || decide (i = 0) || (g.isSome && decide (i = 1))
          || decide (i = 4)) := by
  rw [prepared_eq]
  by_cases hf : ss_family (filled h d g) RTAX_IFP = 0
  · rw [if_pos ⟨rfl, hf⟩]
    simp only [Nat.testBit_or, testBit_RTA_IFP, filled_testBit]
  · rw [if_neg (fun hc => hf hc.2), filled_testBit]
    rw [ss_family_filled] at hf
    have hb : h.rtm_addrs.testBit 4 = true := by
      rcases hi with h0 | h1
      · exact absurd h0 hf
      · exact h1
    by_cases h4 : i = 4
    · subst h4; simp [hb]
    · simp [h4]

theorem prepared_testBit_other (T : Target) (h : rt_handle) (d : sockaddr)
    (g : Option sockaddr) (op : Nat) (hop : op ≠ T.RTM_GET) (i : Nat) :
    (prepared T h d g op).rtm_addrs.testBit i
      = (h.rtm_addrs.testBit i || decide (i = 0) || (g.isSome && decide (i = 1))) := by
  rw [prepared_eq, if_neg (fun hc => hop hc.1), filled_testBit]

theorem prepared_inv (T : Target) (h : rt_handle) (d : sockaddr) (g : Option sockaddr)
    (op : Nat) (hi : ifp_inv h) : ifp_inv (prepared T h d g op) := by
  rw [prepared_eq]
  split
  · right
    simp only [Nat.testBit_or, testBit_RTA_IFP, RTAX_IFP, decide_True, Bool.or_true]
  · unfold ifp_inv
    rw [ss_family_filled, filled_testBit]
    rcases hi with h0 | h1
    · exact Or.inl h0
    · right; simp [show h.rtm_addrs.testBit RTAX_IFP = true from h1]

theorem perform_sent_addrs (T : Target) (h : rt_handle) (e : Exchange) :
    (perform T h e).sent.m_rtm.rtm_addrs = (perform T h e).handle.rtm_addrs := by
  unfold perform
  cases e.req <;>
    simp only [libroute_add, libroute_change, libroute_del, libroute_get,
      libroute_modify_sent, libroute_modify_addrs] <;> rfl

theorem perform_inv (T : Target) (h : rt_handle) (e : Exchange) (hi : ifp_inv h) :
    ifp_inv (perform T h e).handle := by
  unfold perform
  cases e.req <;>
    simp only [libroute_add, libroute_change, libroute_del, libroute_get, ifp_inv, ss_family,
      libroute_modify_so, libroute_modify_addrs] <;>
    exact prepared_inv T h _ _ _ hi

theorem perform_testBit (T : Target) (hT : T.wf) (h : rt_handle) (e : Exchange)
    (hi : ifp_inv h) (i : Nat) :
    (perform T h e).handle.rtm_addrs.testBit i = true
      ↔ (h.rtm_addrs.testBit i = true ∨ i ∈ e.req.roles) := by
  unfold perform
  rcases hr : e.req with ⟨d, g⟩ | ⟨d, g⟩ | d | d
  · simp only [libroute_add, libroute_modify_addrs]
    rw [prepared_testBit_other T h d g _ hT.add_ne]
    cases g <;> simp [Request.roles, RTAX_DST, RTAX_GATEWAY, or_assoc]
  · simp only [libroute_change, libroute_modify_addrs]
    rw [prepared_testBit_other T h d g _ hT.change_ne]
    cases g <;> simp [Request.roles, RTAX_DST, RTAX_GATEWAY, or_assoc]
  · simp only [libroute_del, libroute_modify_addrs]
    rw [prepared_testBit_other T h d none _ hT.delete_ne]
    simp [Request.roles, RTAX_DST]
  · simp only [libroute_get, libroute_modify_addrs]
    rw [prepared_testBit_get T h d none hi]
    simp [Request.roles, RTAX_DST, RTAX_IFP, or_assoc]

theorem roles_written_cons (e : Exchange) (es : List Exchange) :
    roles_written (e :: es) = e.req.roles ++ roles_written es := by
  simp [roles_written]

theorem session_bits (T : Target) (hT : T.wf) (es : List Exchange) :
    ∀ (h : rt_handle), ifp_inv h → ∀ (k : Nat) (r : ModifyResult),
      (session T h es)[k]? = some r → ∀ i,
        (r.sent.m_rtm.rtm_addrs.testBit i = true
          ↔ (h.rtm_addrs.testBit i = true ∨ i ∈ roles_written (es.take (k + 1)))) := by
  induction es with
  | nil => intro h _ k r hk; simp [session] at hk
  | cons e es ih =>
    intro h hi k r hk i
    cases k with
    | zero =>
      simp only [session, List.getElem?_cons_zero, Option.some.injEq] at hk
      subst hk
      rw [perform_sent_addrs, perform_testBit T hT h e hi]
      simp [roles_written]
    | succ k =>
      simp only [session, List.getElem?_cons_succ] at hk
      rw [ih _ (perform_inv T h e hi) k r hk i, perform_testBit T hT h e hi]
      simp only [List.take_succ_cons, roles_written_cons, List.mem_append, or_assoc]

theorem libroute_open_zero (fib : Int) (socket setsockopt : SysResult) (h0 : rt_handle)
    (ho : libroute_open fib socket setsockopt = some h0) :
    h0.rtm_addrs = 0 ∧ h0.so = fun _ => 0 := by
  simp only [libroute_open, libroute_setfib, rt_handle.zero] at ho
  split_ifs at ho <;> simp only [Option.some.injEq] at ho <;> subst ho <;> exact ⟨rfl, rfl⟩

theorem ifp_inv_of_zero (h : rt_handle) (hz : h.so = fun _ => 0) : ifp_inv h := by
  left
  simp [ss_family, hz]

theorem SA_SIZE_ge (T : Target) (hT : T.wf) (len : Nat) : len ≤ SA_SIZE T len := by
  unfold SA_SIZE
  rcases hT.long with h | h <;> rw [h] <;> split <;> omega

theorem NEXTADDR_present (T : Target) (h : rt_handle) (i : Nat) (cp : List Nat)
    (hb : h.rtm_addrs.testBit i = true) :
    NEXTADDR T h (1 <<< i) i cp = cp ++ so_bytes h (so_off i) (SA_SIZE T (ss_len h i)) := by
  unfold NEXTADDR
  rw [if_pos ((and_shift_ne_zero _ _).2 hb)]

theorem NEXTADDR_absent (T : Target) (h : rt_handle) (i : Nat) (cp : List Nat)
    (hb : h.rtm_addrs.testBit i = false) :
    NEXTADDR T h (1 <<< i) i cp = cp := by
  unfold NEXTADDR
  rw [if_neg]
  intro hc
  rw [(and_shift_ne_zero _ _).1 hc] at hb
  exact Bool.noConfusion hb

/-- The payload of a handle whose presence bitmask has the destination and gateway bits
only. -/
theorem fill_payload_dst_gw (T : Target) (h : rt_handle)
    (ha : h.rtm_addrs = RTA_DST ||| RTA_GATEWAY) :
    fill_payload T h = so_bytes h (so_off RTAX_DST) (SA_SIZE T (ss_len h RTAX_DST))
      ++ so_bytes h (so_off RTAX_GATEWAY) (SA_SIZE T (ss_len h RTAX_GATEWAY)) := by
  have b0 : h.rtm_addrs.testBit RTAX_DST = true := by rw [ha]; decide
  have b1 : h.rtm_addrs.testBit RTAX_GATEWAY = true := by rw [ha]; decide
  have b2 : h.rtm_addrs.testBit RTAX_NETMASK = false := by rw [ha]; decide
  have b3 : h.rtm_addrs.testBit RTAX_GENMASK = false := by rw [ha]; decide
  have b4 : h.rtm_addrs.testBit RTAX_IFP = false := by rw [ha]; decide
  have b5 : h.rtm_addrs.testBit RTAX_IFA = false := by rw [ha]; decide
  simp only [fill_payload, RTA_DST, RTA_GATEWAY, RTA_NETMASK, RTA_GENMASK, RTA_IFP, RTA_IFA]
  rw [NEXTADDR_present T h _ _ b0, NEXTADDR_present T h _ _ b1, NEXTADDR_absent T h _ _ b2,
    NEXTADDR_absent T h _ _ b3, NEXTADDR_absent T h _ _ b4, NEXTADDR_absent T h _ _ b5]
  rfl

theorem so_bytes_getD (h : rt_handle) (off n k : Nat) (hk : k < n) :
    (so_bytes h off n).getD k 0 = h.so (off + k) := by
  simp [so_bytes, List.getD_eq_getElem?_getD, List.getElem?_map, List.getElem?_range hk]

/-- The message that a delete sends after an add on a zeroed handle. -/
theorem add_then_del (T : Target) (hT : T.wf) (h0 : rt_handle) (hz : h0.so = fun _ => 0)
    (ha : h0.rtm_addrs = 0) (d1 g d2 : sockaddr) (x1 x2 : Exchange)
    (hx1 : x1.req = .add d1 (some g)) (hx2 : x2.req = .del d2)
    (hd2 : 0 < sa_len d2 ∧ sa_len d2 ≤ sizeof_sockaddr_storage) :
    (perform T (perform T h0 x1).handle x2).sent.m_rtm.rtm_addrs = RTA_DST ||| RTA_GATEWAY
      ∧ ∀ k, k < sa_len g →
          (perform T (perform T h0 x1).handle x2).sent.m_space.getD
            (SA_SIZE T (sa_len d2) + k) 0 = g.getD k 0 := by
  have hso1 : (perform T h0 x1).handle.so
      = memcpy (memcpy h0.so 0 d1 (sa_len d1)) 128 g (sa_len g) := by
    simp only [perform, hx1, libroute_add, libroute_modify_so, prepared_eq,
      if_neg (fun hc : T.RTM_ADD = T.RTM_GET ∧ _ => hT.add_ne hc.1)]
    rfl
  have had1 : (perform T h0 x1).handle.rtm_addrs = RTA_DST ||| RTA_GATEWAY := by
    simp only [perform, hx1, libroute_add, libroute_modify_addrs, prepared_eq,
      if_neg (fun hc : T.RTM_ADD = T.RTM_GET ∧ _ => hT.add_ne hc.1)]
    simp only [filled, fillso, ha]
    rfl
  have hsent : (perform T (perform T h0 x1).handle x2).sent
      = fill_rtmsg T (fillso (perform T h0 x1).handle RTAX_DST d2) T.RTM_DELETE (flags_gw T) := by
    simp only [perform, hx2, libroute_del, libroute_modify_sent, prepared_eq,
      if_neg (fun hc : T.RTM_DELETE = T.RTM_GET ∧ _ => hT.delete_ne hc.1)]
    rfl
  have had2 : (fillso (perform T h0 x1).handle RTAX_DST d2).rtm_addrs
      = RTA_DST ||| RTA_GATEWAY := by
    simp only [fillso, had1]
    rfl
  have hso2 : ∀ j, (fillso (perform T h0 x1).handle RTAX_DST d2).so j
      = if j < sa_len d2 then d2.getD j 0
        else if 128 ≤ j ∧ j < 128 + sa_len g then g.getD (j - 128) 0
        else if j < sa_len d1 then d1.getD j 0 else 0 := by
    intro j
    simp only [fillso, hso1, memcpy, hz, so_off, RTAX_DST, Nat.zero_mul, Nat.zero_add,
      Nat.zero_le, true_and, Nat.sub_zero]
  have hlen0 : ss_len (fillso (perform T h0 x1).handle RTAX_DST d2) RTAX_DST = sa_len d2 := by
    unfold ss_len
    rw [hso2]
    simp only [so_off, RTAX_DST, Nat.zero_mul]
    rw [if_pos hd2.1]
    rfl
  have h128 : sa_len d2 ≤ 128 := hd2.2
  refine ⟨by rw [hsent]; exact had2, ?_⟩
  intro k hk
  have hlen1 : ss_len (fillso (perform T h0 x1).handle RTAX_DST d2) RTAX_GATEWAY = sa_len g := by
    unfold ss_len
    rw [hso2]
    simp only [so_off, RTAX_GATEWAY, Nat.one_mul, sizeof_sockaddr_storage]
    rw [if_neg (by omega), if_pos (by omega)]
    rfl
  have hge := SA_SIZE_ge T hT (sa_len g)
  rw [hsent]
  simp only [fill_rtmsg]
  rw [fill_payload_dst_gw T _ had2, hlen0, hlen1, List.append_assoc]
  rw [List.getD_append_right _ _ _ _ (by rw [so_bytes_length]; omega), so_bytes_length,
    Nat.add_sub_cancel_left,
    List.getD_append _ _ _ _ (by rw [so_bytes_length]; omega),
    so_bytes_getD _ _ _ _ (by omega), hso2]
  simp only [so_off, RTAX_GATEWAY, Nat.one_mul, sizeof_sockaddr_storage]
  rw [if_neg (by omega), if_pos (by omega), Nat.add_sub_cancel_left]

theorem prepared_testBit_mono (T : Target) (h : rt_handle) (d : sockaddr)
    (g : Option sockaddr) (op : Nat) (i : Nat) (hb : h.rtm_addrs.testBit i = true) :
    (prepared T h d g op).rtm_addrs.testBit i = true := by
  rw [prepared_eq]
  split
  · simp only [Nat.testBit_or, filled_testBit, hb, Bool.true_or]
  · simp only [filled_testBit, hb, Bool.true_or]

theorem perform_testBit_mono (T : Target) (h : rt_handle) (e : Exchange) (i : Nat)
    (hb : h.rtm_addrs.testBit i = true) :
    (perform T h e).handle.rtm_addrs.testBit i = true := by
  unfold perform
  cases e.req <;>
    simp only [libroute_add, libroute_change, libroute_del, libroute_get,
      libroute_modify_addrs] <;>
    exact prepared_testBit_mono T h _ _ _ i hb

theorem NEXTADDR_seg (T : Target) (h : rt_handle) (i : Nat) (cp : List Nat) :
    NEXTADDR T h (1 <<< i) i cp = cp ++ slot_seg T h i := by
  unfold slot_seg
  by_cases hb : h.rtm_addrs.testBit i = true
  · rw [NEXTADDR_present T h i cp hb, if_pos hb]
  · rw [NEXTADDR_absent T h i cp (by simpa using hb), if_neg hb, List.append_nil]

theorem fill_payload_segs (T : Target) (h : rt_handle) :
    fill_payload T h = (slot_seg T h 0 ++ slot_seg T h 1 ++ slot_seg T h 2 ++ slot_seg T h 3)
      ++ slot_seg T h 4 ++ slot_seg T h 5 := by
  simp only [fill_payload, RTA_DST, RTA_GATEWAY, RTA_NETMASK, RTA_GENMASK, RTA_IFP, RTA_IFA,
    RTAX_DST, RTAX_GATEWAY, RTAX_NETMASK, RTAX_GENMASK, RTAX_IFP, RTAX_IFA, NEXTADDR_seg,
    List.nil_append]

theorem libroute_modify_get_zero (T : Target) (h : rt_handle) (d : sockaddr)
    (g : Option sockaddr) (hf : ss_family h RTAX_IFP = 0) :
    (prepared T h d g T.RTM_GET).so
        = memcpy (memcpy (filled h d g).so (so_off RTAX_IFP + 1) [T.AF_LINK % 256] 1)
            (so_off RTAX_IFP) [T.sizeof_sockaddr_dl % 256] 1
      ∧ (prepared T h d g T.RTM_GET).rtm_addrs = (filled h d g).rtm_addrs ||| RTA_IFP := by
  rw [prepared_eq, if_pos ⟨rfl, by rw [ss_family_filled]; exact hf⟩]
  exact ⟨rfl, rfl⟩

theorem prepared_so_far (T : Target) (h : rt_handle) (d : sockaddr) (g : Option sockaddr)
    (op : Nat) (hop : op ≠ T.RTM_GET ∨ ss_family h RTAX_IFP ≠ 0) (j : Nat) (hj : 384 ≤ j) :
    (prepared T h d g op).so j = h.so j
      ∧ (prepared T h d g op).rtm_addrs.testBit RTAX_IFP = h.rtm_addrs.testBit RTAX_IFP := by
  rw [prepared_eq, if_neg]
  · exact ⟨filled_so_far h d g j hj, by rw [filled_testBit]; simp [RTAX_IFP]⟩
  · rintro ⟨h1, h2⟩
    rw [ss_family_filled] at h2
    rcases hop with ho | ho
    · exact ho h1
    · exact ho h2

/-! ## Lemmas on the histogram -/

theorem find_cons_ite (q : Nat → Prop) [DecidablePred q] (a : Nat) (l : List Nat) :
    (a :: l).find? (fun i => decide (q i))
      = if q a then some a else l.find? (fun i => decide (q i)) := by
  by_cases h : q a <;> simp [List.find?_cons, h]

theorem bucketcuts_getD :
    bucketcuts.getD 0 0 = 1000000 ∧ bucketcuts.getD 1 0 = 2000000
    ∧ bucketcuts.getD 2 0 = 3000000 ∧ bucketcuts.getD 3 0 = 4000000
    ∧ bucketcuts.getD 4 0 = 5000000 ∧ bucketcuts.getD 5 0 = 6000000
    ∧ bucketcuts.getD 6 0 = 7000000 ∧ bucketcuts.getD 7 0 = 8000000
    ∧ bucketcuts.getD 8 0 = 9000000 ∧ bucketcuts.getD 9 0 = 10000000
    ∧ bucketcuts.getD 10 0 = 100000000 := by decide

theorem bucket_of_eq (v : Nat) : bucket_of v = bucket_steps v := by
  have hr : List.range 11 = [0, 1, 2, 3, 4, 5, 6, 7, 8, 9, 10] := by decide
  obtain ⟨c0, c1, c2, c3, c4, c5, c6, c7, c8, c9, c10⟩ := bucketcuts_getD
  unfold bucket_of bucket_steps
  rw [hr]
  iterate 11 rw [find_cons_ite (fun i => v < bucketcuts.getD i 0)]
  rw [c0, c1, c2, c3, c4, c5, c6, c7, c8, c9, c10, List.find?_nil]
  by_cases h0 : v < 1000000
  · rw [if_pos h0, if_pos h0]; rfl
  rw [if_neg h0, if_neg h0]
  by_cases h1 : v < 2000000
  · rw [if_pos h1, if_pos h1]; rfl
  rw [if_neg h1, if_neg h1]
  by_cases h2 : v < 3000000
  · rw [if_pos h2, if_pos h2]; rfl
  rw [if_neg h2, if_neg h2]
  by_cases h3 : v < 4000000
  · rw [if_pos h3, if_pos h3]; rfl
  rw [if_neg h3, if_neg h3]
  by_cases h4 : v < 5000000
  · rw [if_pos h4, if_pos h4]; rfl
  rw [if_neg h4, if_neg h4]
  by_cases h5 : v < 6000000
  · rw [if_pos h5, if_pos h5]; rfl
  rw [if_neg h5, if_neg h5]
  by_cases h6 : v < 7000000
  · rw [if_pos h6, if_pos h6]; rfl
  rw [if_neg h6, if_neg h6]
  by_cases h7 : v < 8000000
  · rw [if_pos h7, if_pos h7]; rfl
  rw [if_neg h7, if_neg h7]
  by_cases h8 : v < 9000000
  · rw [if_pos h8, if_pos h8]; rfl
  rw [if_neg h8, if_neg h8]
  by_cases h9 : v < 10000000
  · rw [if_pos h9, if_pos h9]; rfl
  rw [if_neg h9, if_neg h9]
  by_cases h10 : v < 100000000
  · rw [if_pos h10]; rfl
  · rw [if_neg h10]; rfl

theorem bucket_steps_eq (v : Nat) : bucket_steps v = min (v / 1000000) 10 := by
  unfold bucket_steps
  by_cases h0 : v < 1000000
  · rw [if_pos h0]; omega
  rw [if_neg h0]
  by_cases h1 : v < 2000000
  · rw [if_pos h1]; omega
  rw [if_neg h1]
  by_cases h2 : v < 3000000
  · rw [if_pos h2]; omega
  rw [if_neg h2]
  by_cases h3 : v < 4000000
  · rw [if_pos h3]; omega
  rw [if_neg h3]
  by_cases h4 : v < 5000000
  · rw [if_pos h4]; omega
  rw [if_neg h4]
  by_cases h5 : v < 6000000
  · rw [if_pos h5]; omega
  rw [if_neg h5]
  by_cases h6 : v < 7000000
  · rw [if_pos h6]; omega
  rw [if_neg h6]
  by_cases h7 : v < 8000000
  · rw [if_pos h7]; omega
  rw [if_neg h7]
  by_cases h8 : v < 9000000
  · rw [if_pos h8]; omega
  rw [if_neg h8]
  by_cases h9 : v < 10000000
  · rw [if_pos h9]; omega
  rw [if_neg h9]
  omega

theorem histstore_eq (b : List Nat) (v : Nat) :
    histstore bucketcuts b v = bump b (bucket_steps v) := by
  obtain ⟨c0, c1, c2, c3, c4, c5, c6, c7, c8, c9, c10⟩ := bucketcuts_getD
  unfold histstore
  rw [c10]
  by_cases hbig : v ≥ 100000000
  · have hten : bucket_steps v = 10 := by rw [bucket_steps_eq]; omega
    rw [if_pos hbig, hten]
  rw [if_neg hbig]
  unfold bucket_steps
  iterate 11 rw [histstore_loop]
  rw [histstore_loop]
  rw [c0, c1, c2, c3, c4, c5, c6, c7, c8, c9, c10]
  by_cases h0 : v < 1000000
  · rw [if_pos h0, if_pos h0]
  rw [if_neg h0, if_neg h0]
  by_cases h1 : v < 2000000
  · rw [if_pos h1, if_pos h1]
  rw [if_neg h1, if_neg h1]
  by_cases h2 : v < 3000000
  · rw [if_pos h2, if_pos h2]
  rw [if_neg h2, if_neg h2]
  by_cases h3 : v < 4000000
  · rw [if_pos h3, if_pos h3]
  rw [if_neg h3, if_neg h3]
  by_cases h4 : v < 5000000
  · rw [if_pos h4, if_pos h4]
  rw [if_neg h4, if_neg h4]
  by_cases h5 : v < 6000000
  · rw [if_pos h5, if_pos h5]
  rw [if_neg h5, if_neg h5]
  by_cases h6 : v < 7000000
  · rw [if_pos h6, if_pos h6]
  rw [if_neg h6, if_neg h6]
  by_cases h7 : v < 8000000
  · rw [if_pos h7, if_pos h7]
  rw [if_neg h7, if_neg h7]
  by_cases h8 : v < 9000000
  · rw [if_pos h8, if_pos h8]
  rw [if_neg h8, if_neg h8]
  by_cases h9 : v < 10000000
  · rw [if_pos h9, if_pos h9]
  rw [if_neg h9, if_neg h9]
  rw [if_pos (by omega)]

theorem bucketcuts_getD_lt (i : Nat) (hi : i < 10) :
    bucketcuts.getD i 0 = (i + 1) * 1000000 := by
  obtain ⟨c0, c1, c2, c3, c4, c5, c6, c7, c8, c9, _⟩ := bucketcuts_getD
  interval_cases i
  · exact c0
  · exact c1
  · exact c2
  · exact c3
  · exact c4
  · exact c5
  · exact c6
  · exact c7
  · exact c8
  · exact c9

theorem sum_set_add (l : List Nat) (i x : Nat) (hi : i < l.length) :
    (l.set i x).sum + l.getD i 0 = l.sum + x := by
  induction l generalizing i with
  | nil => simp at hi
  | cons a t ih =>
    cases i with
    | zero => simp [List.set]; omega
    | succ i =>
      have := ih i (by simpa using hi)
      simp only [List.set, List.sum_cons, List.getD_cons_succ]
      omega

theorem getD_le_sum (l : List Nat) (i : Nat) : l.getD i 0 ≤ l.sum := by
  induction l generalizing i with
  | nil => simp
  | cons a t ih =>
    cases i with
    | zero => simp
    | succ i =>
      have := ih i
      simp only [List.getD_cons_succ, List.sum_cons]
      omega

theorem bucket_steps_le (v : Nat) : bucket_steps v ≤ 10 := by
  rw [bucket_steps_eq]; omega

theorem bump_length (b : List Nat) (i : Nat) : (bump b i).length = b.length := by
  simp [bump]

theorem bump_getD (b : List Nat) (i j : Nat) (hi : i < b.length) :
    (bump b i).getD j 0 = if j = i then (b.getD j 0 + 1) % 2 ^ 64 else b.getD j 0 := by
  unfold bump
  by_cases hj : j = i
  · subst hj
    rw [if_pos rfl]
    simp [List.getD_eq_getElem?_getD, List.getElem?_set, hi]
  · rw [if_neg hj]
    have : i ≠ j := fun hc => hj hc.symm
    simp [List.getD_eq_getElem?_getD, List.getElem?_set_ne this]

theorem bump_sum (b : List Nat) (i : Nat) (hi : i < b.length) (hs : b.sum + 1 < 2 ^ 64) :
    (bump b i).sum = b.sum + 1 := by
  have h1 := getD_le_sum b i
  have h2 := sum_set_add b i ((b.getD i 0 + 1) % 2 ^ 64) hi
  have h3 : (b.getD i 0 + 1) % 2 ^ 64 = b.getD i 0 + 1 := Nat.mod_eq_of_lt (by omega)
  unfold bump
  omega

theorem histstore_fold (vs : List Nat) :
    ∀ (b : List Nat), b.length = 11 → b.sum + vs.length < 2 ^ 64 →
      (vs.foldl (histstore bucketcuts) b).length = 11
        ∧ (vs.foldl (histstore bucketcuts) b).sum = b.sum + vs.length := by
  induction vs with
  | nil => intro b hb _; exact ⟨hb, rfl⟩
  | cons v vs ih =>
    intro b hb hs
    simp only [List.length_cons] at hs
    have hi : bucket_steps v < b.length := by have := bucket_steps_le v; omega
    have hsum : (histstore bucketcuts b v).sum = b.sum + 1 := by
      rw [histstore_eq]; exact bump_sum b _ hi (by omega)
    have hlen : (histstore bucketcuts b v).length = 11 := by
      rw [histstore_eq, bump_length]; exact hb
    obtain ⟨h1, h2⟩ := ih (histstore bucketcuts b v) hlen (by omega)
    simp only [List.foldl_cons, List.length_cons]
    exact ⟨h1, by omega⟩

/-! ## Lemmas on the load generator -/

theorem to_int_of_fits (v : Int) (hv : fits_int v) : to_int v = v := by
  obtain ⟨h1, h2⟩ := hv
  unfold to_int
  split_ifs <;> omega

theorem libroute_modify_ret (T : Target) (h : rt_handle) (d : sockaddr) (g : Option sockaddr)
    (op fl : Nat) (wr : SysResult) (reply : rt_msg_t) :
    (libroute_modify T h d g op fl wr ⟨0, 0⟩ reply).ret
      = if to_int wr.result < 0 then -1 else 0 := by
  have h0 : ¬ to_int (SysResult.mk 0 0).result < 0 := by decide
  simp only [libroute_modify, h0, if_false]
  split_ifs <;> rfl

theorem span_succ_right (lo n : Nat) : span lo (n + 1) = span lo n ++ [lo + n] := by
  induction n generalizing lo with
  | zero => rfl
  | succ n ih =>
    rw [span, ih (lo + 1), span]
    simp only [List.cons_append]
    have e : lo + 1 + n = lo + (n + 1) := by omega
    rw [e]

theorem span_eq_drop (lo n : Nat) : span lo n = (List.range (lo + n)).drop lo := by
  induction n with
  | zero => simp [span]
  | succ n ih =>
    rw [span_succ_right, ih, ← Nat.add_assoc, List.range_succ, List.drop_append_of_le_length]
    simp

theorem span_zero (n : Nat) : span 0 n = List.range n := by
  rw [span_eq_drop]; simp

theorem span_two (n : Nat) : span 2 (n - 2) = (List.range n).drop 2 := by
  rw [span_eq_drop]
  by_cases h : 2 ≤ n
  · have e : 2 + (n - 2) = n := by omega
    rw [e]
  · have e : n - 2 = 0 := by omega
    rw [e]
    have h1 : (List.range n).length ≤ 2 := by simp; omega
    rw [List.drop_eq_nil_of_le h1]
    simp

theorem expect_append (env : Env) (a b : List Plan) :
    ∀ cs n, expect env cs n (a ++ b)
      = (expect env cs n a).bind (fun r => expect env r.1 r.2 b) := by
  induction a with
  | nil => intro cs n; rfl
  | cons p ps ih =>
    intro cs n
    simp only [List.cons_append, expect]
    by_cases hw : to_int (env.write n).result < 0
    · rw [if_pos hw, if_pos hw]; rfl
    · rw [if_neg hw, if_neg hw]; exact ih _ _

theorem realises_add (T : Target) (env : Env) (sa : sockaddr) (gw : List Nat) (z y x : Nat) :
    realises env (add_route T env sa gw z y x) [Plan.add (dest_addr z y x) gw] := by
  intro w
  simp only [add_route, libroute_add, libroute_modify_ret, expect, Plan.call]
  by_cases hw : to_int (env.write w.nwrite).result < 0
  · simp [hw, view]
  · simp [hw, view]

theorem realises_del (T : Target) (env : Env) (z x y : Nat) :
    realises env (del_route T env z x y) [Plan.del (dest_addr z x y)] := by
  intro w
  simp only [del_route, libroute_del, libroute_modify_ret, expect, Plan.call]
  by_cases hw : to_int (env.write w.nwrite).result < 0
  · simp [hw, view]
  · simp [hw, view]

theorem realises_seq (env : Env) (F G : World → Except World World) (a b : List Plan)
    (hF : realises env F a) (hG : realises env G b) :
    realises env (fun w => match F w with
      | .ok w1 => G w1
      | .error e => .error e) (a ++ b) := by
  intro w
  have h1 := hF w
  rw [expect_append, ← h1]
  show view (match F w with
    | .ok w1 => G w1
    | .error e => .error e) = _
  cases F w with
  | error e => rfl
  | ok w1 => exact hG w1

theorem realises_forLoop (env : Env) (body : Nat → World → Except World World)
    (g : Nat → List Plan) (hb : ∀ i, realises env (body i) (g i)) (n : Nat) :
    ∀ lo, realises env (forLoop body lo n) ((span lo n).flatMap g) := by
  induction n with
  | zero => intro lo w; rfl
  | succ n ih =>
    intro lo w
    have h := realises_seq env (body lo) (forLoop body (lo + 1) n) (g lo) _ (hb lo) (ih (lo + 1)) w
    simp only [span, List.flatMap_cons]
    rw [← h, forLoop]
    beta_reduce
    cases body lo w <;> rfl

theorem vm_veto_calls (env : Env) (veto : Int) (w : World) :
    (vm_veto env veto w).2.calls = w.calls ∧ (vm_veto env veto w).2.nwrite = w.nwrite := by
  simp only [vm_veto]
  split_ifs <;> exact ⟨rfl, rfl⟩

theorem realises_fill_batch (T : Target) (env : Env) (sa : sockaddr) (gw : List Nat)
    (veto : Int) (xroutes z y : Nat) :
    realises env (fill_batch T env sa gw veto xroutes z y)
      ((span 2 (xroutes - 2)).flatMap fun x => [Plan.add (dest_addr z y x) gw]) := by
  intro w
  have h := realises_forLoop env (add_route T env sa gw z y) _
    (fun x => realises_add T env sa gw z y x) (xroutes - 2) 2
    { (vm_veto env veto w).2 with nclock := (vm_veto env veto w).2.nclock + 1 }
  have hv := vm_veto_calls env veto w
  have h1 : expect env w.calls w.nwrite
        ((span 2 (xroutes - 2)).flatMap fun x => [Plan.add (dest_addr z y x) gw])
      = expect env (vm_veto env veto w).2.calls (vm_veto env veto w).2.nwrite
        ((span 2 (xroutes - 2)).flatMap fun x => [Plan.add (dest_addr z y x) gw]) := by
    rw [hv.1, hv.2]
  rw [h1]
  refine Eq.trans ?_ h
  simp only [fill_batch]
  cases forLoop (add_route T env sa gw z y) 2 (xroutes - 2)
    { (vm_veto env veto w).2 with nclock := (vm_veto env veto w).2.nclock + 1 } <;> rfl

theorem realises_del_loops (T : Target) (env : Env) (xroutes yroutes zroutes : Nat) :
    realises env
      (forLoop (fun z => forLoop (fun x => forLoop (del_route T env z x) 2 (yroutes - 2))
        0 xroutes) 0 zroutes)
      ((flush_dests xroutes yroutes zroutes).map Plan.del) := by
  have h := realises_forLoop env
    (fun z => forLoop (fun x => forLoop (del_route T env z x) 2 (yroutes - 2)) 0 xroutes)
    (fun z => (span 0 xroutes).flatMap fun x =>
      (span 2 (yroutes - 2)).flatMap fun y => [Plan.del (dest_addr z x y)])
    (fun z => realises_forLoop env _ _
      (fun x => realises_forLoop env _ _ (fun y => realises_del T env z x y) (yroutes - 2) 2)
      xroutes 0)
    zroutes 0
  have e : (flush_dests xroutes yroutes zroutes).map Plan.del
      = (span 0 zroutes).flatMap (fun z => (span 0 xroutes).flatMap fun x =>
          (span 2 (yroutes - 2)).flatMap fun y => [Plan.del (dest_addr z x y)]) := by
    simp only [flush_dests, span_zero, span_two, List.map_flatMap, List.map_map,
      ← List.map_eq_flatMap]
    rfl
  rw [e]
  exact h

theorem realises_add_loops (T : Target) (env : Env) (sa : sockaddr) (veto : Int)
    (xroutes yroutes zroutes : Nat) :
    realises env
      (forLoop (fun z => forLoop (fill_batch T env sa gateway_addr veto xroutes z) 0 yroutes)
        0 zroutes)
      ((fill_dests xroutes yroutes zroutes).map (fun d => Plan.add d gateway_addr)) := by
  have h := realises_forLoop env
    (fun z => forLoop (fill_batch T env sa gateway_addr veto xroutes z) 0 yroutes)
    (fun z => (span 0 yroutes).flatMap fun y =>
      (span 2 (xroutes - 2)).flatMap fun x => [Plan.add (dest_addr z y x) gateway_addr])
    (fun z => realises_forLoop env _ _
      (fun y => realises_fill_batch T env sa gateway_addr veto xroutes z y) yroutes 0)
    zroutes 0
  have e : (fill_dests xroutes yroutes zroutes).map (fun d => Plan.add d gateway_addr)
      = (span 0 zroutes).flatMap (fun z => (span 0 yroutes).flatMap fun y =>
          (span 2 (xroutes - 2)).flatMap fun x => [Plan.add (dest_addr z y x) gateway_addr]) := by
    simp only [fill_dests, span_zero, span_two, List.map_flatMap, List.map_map,
      ← List.map_eq_flatMap]
    rfl
  rw [e]
  exact h

/-- What is observed of `routestress` on an opened session is what `expect` says of the
planned calls. -/
theorem routestress_view (T : Target) (env : Env) (printhist : Bool) (veto : Int)
    (xroutes yroutes zroutes : Nat) (h0 : rt_handle)
    (ho : libroute_open 0 env.socket env.setsockopt = some h0) :
    (view (routestress T env printhist veto xroutes yroutes zroutes)).map Prod.fst
      = (expect env [] 0 (plan xroutes yroutes zroutes)).map Prod.fst := by
  have h := realises_seq env _ _ _ _
    (realises_add_loops T env (str_to_sockaddr T gateway_addr) veto xroutes yroutes zroutes)
    (realises_del_loops T env xroutes yroutes zroutes) (World.init h0)
  have hi : (World.init h0).calls = [] ∧ (World.init h0).nwrite = 0 := ⟨rfl, rfl⟩
  rw [hi.1, hi.2] at h
  unfold plan
  rw [← h]
  simp only [routestress, ho]
  cases forLoop (fun z => forLoop (fill_batch T env (str_to_sockaddr T gateway_addr)
      gateway_addr veto xroutes z) 0 yroutes) 0 zroutes (World.init h0) with
  | error e => rfl
  | ok w =>
    simp only
    cases forLoop (fun z => forLoop (fun x => forLoop (del_route T env z x) 2 (yroutes - 2))
        0 xroutes) 0 zroutes w with
    | error e => rfl
    | ok w1 => cases printhist <;> rfl

theorem expect_all_ok (env : Env) (hw : ∀ k, 0 ≤ to_int (env.write k).result)
    (seg : List Plan) :
    ∀ cs n, expect env cs n seg
      = .ok (cs ++ seg.map (fun p => p.call 0), n + seg.length) := by
  induction seg with
  | nil => intro cs n; simp [expect]
  | cons p ps ih =>
    intro cs n
    have := hw n
    simp only [expect]
    rw [if_neg (by omega), ih]
    simp only [List.map_cons, List.length_cons, List.append_assoc, List.singleton_append]
    have e : n + 1 + ps.length = n + (ps.length + 1) := by omega
    rw [e]

theorem expect_first_fail (env : Env) (seg : List Plan) :
    ∀ (k : Nat) (cs : List Call) (n : Nat), k < seg.length →
      (∀ j, j < k → 0 ≤ to_int (env.write (n + j)).result) →
      to_int (env.write (n + k)).result < 0 →
      expect env cs n seg
        = .error (cs ++ (seg.take k).map (fun p => p.call 0)
            ++ ((seg.drop k).take 1).map (fun p => p.call (-1))) := by
  induction seg with
  | nil => intro k cs n hk; simp at hk
  | cons p ps ih =>
    intro k cs n hk hok hfail
    cases k with
    | zero =>
      simp only [expect]
      rw [if_pos (by simpa using hfail)]
      simp
    | succ k =>
      have h0 := hok 0 (by omega)
      simp only [expect]
      rw [if_neg (by simpa using h0)]
      rw [ih k _ (n + 1) (by simpa using hk)
        (fun j hj => by have := hok (j + 1) (by omega); rwa [show n + 1 + j = n + (j + 1) by omega])
        (by rwa [show n + 1 + k = n + (k + 1) by omega])]
      simp

theorem length_flatMap_const {α : Type} (f : Nat → List α) (c : Nat)
    (hf : ∀ i, (f i).length = c) (n : Nat) : ((List.range n).flatMap f).length = n * c := by
  induction n with
  | zero => simp
  | succ n ih =>
    rw [List.range_succ, List.flatMap_append, List.length_append, ih]
    simp only [List.flatMap_cons, List.flatMap_nil, List.append_nil, hf]
    rw [Nat.succ_mul]

theorem fill_dests_length (x y z : Nat) : (fill_dests x y z).length = z * y * (x - 2) := by
  unfold fill_dests
  rw [length_flatMap_const _ (y * (x - 2)), Nat.mul_assoc]
  intro i
  rw [length_flatMap_const _ (x - 2)]
  intro j
  simp

theorem flush_dests_length (x y z : Nat) : (flush_dests x y z).length = z * x * (y - 2) := by
  unfold flush_dests
  rw [length_flatMap_const _ (x * (y - 2)), Nat.mul_assoc]
  intro i
  rw [length_flatMap_const _ (y - 2)]
  intro j
  simp

theorem mem_span (i m lo : Nat) : i ∈ span lo m ↔ lo ≤ i ∧ i < lo + m := by
  induction m generalizing lo with
  | zero => simp [span]
  | succ m ih =>
    simp only [span, List.mem_cons, ih]
    omega

theorem mem_range_drop (n i : Nat) : i ∈ (List.range n).drop 2 ↔ 2 ≤ i ∧ i < n := by
  rw [← span_two, mem_span]
  omega

theorem mem_fill_dests (x y z : Nat) (d : List Nat) :
    d ∈ fill_dests x y z ↔ ∃ zi yi xi, zi < z ∧ yi < y ∧ 2 ≤ xi ∧ xi < x ∧ d = [10, zi, yi, xi] := by
  simp only [fill_dests, List.mem_flatMap, List.mem_map, List.mem_range, mem_range_drop]
  constructor
  · rintro ⟨zi, hz, yi, hy, xi, ⟨h2, hx⟩, rfl⟩
    exact ⟨zi, yi, xi, hz, hy, h2, hx, rfl⟩
  · rintro ⟨zi, yi, xi, hz, hy, h2, hx, rfl⟩
    exact ⟨zi, hz, yi, hy, xi, ⟨h2, hx⟩, rfl⟩

theorem mem_flush_dests (x y z : Nat) (d : List Nat) :
    d ∈ flush_dests x y z ↔ ∃ zi xi yi, zi < z ∧ xi < x ∧ 2 ≤ yi ∧ yi < y ∧ d = [10, zi, xi, yi] := by
  simp only [flush_dests, List.mem_flatMap, List.mem_map, List.mem_range, mem_range_drop]
  constructor
  · rintro ⟨zi, hz, xi, hx, yi, ⟨h2, hy⟩, rfl⟩
    exact ⟨zi, xi, yi, hz, hx, h2, hy, rfl⟩
  · rintro ⟨zi, xi, yi, hz, hx, h2, hy, rfl⟩
    exact ⟨zi, hz, xi, hx, yi, ⟨h2, hy⟩, rfl⟩

/-- On an opened session and with every `write` succeeding (as an `int`), `routestress` returns and has
made all the planned calls. -/
theorem routestress_ok_calls (T : Target) (env : Env) (printhist : Bool) (veto : Int)
    (xroutes yroutes zroutes : Nat) (h0 : rt_handle)
    (ho : libroute_open 0 env.socket env.setsockopt = some h0)
    (hw : ∀ k, 0 ≤ to_int (env.write k).result) :
    ∃ w, routestress T env printhist veto xroutes yroutes zroutes = .ok w
      ∧ w.calls = (fill_dests xroutes yroutes zroutes).map (fun d => Call.add d [1, 0, 0, 1] 0)
          ++ (flush_dests xroutes yroutes zroutes).map (fun d => Call.del d 0) := by
  have h := routestress_view T env printhist veto xroutes yroutes zroutes h0 ho
  rw [expect_all_ok env hw] at h
  cases hr : routestress T env printhist veto xroutes yroutes zroutes with
  | error e => rw [hr] at h; exact absurd h (by simp [view, Except.map])
  | ok w =>
    rw [hr] at h
    refine ⟨w, rfl, ?_⟩
    simp only [view, Except.map, Except.ok.injEq, List.nil_append] at h
    rw [h]
    simp only [plan, List.map_append, List.map_map, gateway_addr]
    rfl

/-- On an opened session, when the `write` of the add number `k` (from 0) is the first to
fail, `routestress` ends the process after that add. -/
theorem routestress_fail_calls (T : Target) (env : Env) (printhist : Bool) (veto : Int)
    (xroutes yroutes zroutes : Nat) (h0 : rt_handle)
    (ho : libroute_open 0 env.socket env.setsockopt = some h0)
    (k : Nat) (hk : k < (fill_dests xroutes yroutes zroutes).length)
    (hok : ∀ j, j < k → 0 ≤ to_int (env.write j).result)
    (hfail : to_int (env.write k).result < 0) :
    ∃ w, routestress T env printhist veto xroutes yroutes zroutes = .error w
      ∧ w.calls = ((fill_dests xroutes yroutes zroutes).take k).map
            (fun d => Call.add d [1, 0, 0, 1] 0)
          ++ (((fill_dests xroutes yroutes zroutes).drop k).take 1).map
            (fun d => Call.add d [1, 0, 0, 1] (-1)) := by
  have h := routestress_view T env printhist veto xroutes yroutes zroutes h0 ho
  have hk2 : k < (plan xroutes yroutes zroutes).length := by
    simp only [plan, List.length_append, List.length_map]; omega
  rw [expect_first_fail env _ k [] 0 hk2 (fun j hj => by rw [Nat.zero_add]; exact hok j hj)
    (by rw [Nat.zero_add]; exact hfail)] at h
  cases hr : routestress T env printhist veto xroutes yroutes zroutes with
  | ok w => rw [hr] at h; exact absurd h (by simp [view, Except.map])
  | error w =>
    rw [hr] at h
    refine ⟨w, rfl, ?_⟩
    simp only [view, Except.map, Except.error.injEq, List.nil_append] at h
    rw [h]
    have hlen : k ≤ ((fill_dests xroutes yroutes zroutes).map
        (fun d => Plan.add d gateway_addr)).length := by
      rw [List.length_map]; omega
    have hlen1 : 1 ≤ ((((fill_dests xroutes yroutes zroutes).map
        (fun d => Plan.add d gateway_addr))).drop k).length := by
      rw [List.length_drop, List.length_map]; omega
    simp only [plan]
    rw [List.take_append_of_le_length hlen, List.drop_append_of_le_length hlen,
      List.take_append_of_le_length hlen1]
    simp only [← List.map_take, ← List.map_drop, List.map_map, gateway_addr]
    rfl

theorem adds_of_calls (a b : List (List Nat)) (g : List Nat) (r1 r2 : Int) :
    adds_of (a.map (fun d => Call.add d g r1) ++ b.map (fun d => Call.del d r2)) = a := by
  simp only [adds_of, List.filterMap_append, List.filterMap_map]
  have h1 : List.filterMap ((fun c => match c with
      | Call.add d _ _ => some d
      | Call.del _ _ => none) ∘ fun d => Call.add d g r1) a = a := by
    induction a with
    | nil => rfl
    | cons x t ih => simp only [List.filterMap_cons, Function.comp]; rw [ih]
  have h2 : List.filterMap ((fun c => match c with
      | Call.add d _ _ => some d
      | Call.del _ _ => none) ∘ fun d => Call.del d r2) b = [] := by
    induction b with
    | nil => rfl
    | cons x t ih => simp only [List.filterMap_cons, Function.comp]; rw [ih]
  rw [h1, h2, List.append_nil]

theorem dels_of_calls (a b : List (List Nat)) (g : List Nat) (r1 r2 : Int) :
    dels_of (a.map (fun d => Call.add d g r1) ++ b.map (fun d => Call.del d r2)) = b := by
  simp only [dels_of, List.filterMap_append, List.filterMap_map]
  have h1 : List.filterMap ((fun c => match c with
      | Call.add _ _ _ => none
      | Call.del d _ => some d) ∘ fun d => Call.add d g r1) a = [] := by
    induction a with
    | nil => rfl
    | cons x t ih => simp only [List.filterMap_cons, Function.comp]; rw [ih]
  have h2 : List.filterMap ((fun c => match c with
      | Call.add _ _ _ => none
      | Call.del d _ => some d) ∘ fun d => Call.del d r2) b = b := by
    induction b with
    | nil => rfl
    | cons x t ih => simp only [List.filterMap_cons, Function.comp]; rw [ih]
  rw [h1, h2, List.nil_append]

theorem good_adds_calls (a b : List (List Nat)) (g : List Nat) :
    good_adds (a.map (fun d => Call.add d g 0) ++ b.map (fun d => Call.add d g (-1)))
      = a.map (fun d => Call.add d g 0) := by
  simp only [good_adds, List.filter_append]
  have h1 : ∀ l : List (List Nat), List.filter (fun c => match c with
      | Call.add _ _ r => decide (r = 0)
      | Call.del _ _ => false) (l.map (fun d => Call.add d g 0))
      = l.map (fun d => Call.add d g 0) := by
    intro l
    induction l with
    | nil => rfl
    | cons x t ih => simp only [List.map_cons, List.filter_cons]; rw [ih]; rfl
  have h2 : ∀ l : List (List Nat), List.filter (fun c => match c with
      | Call.add _ _ r => decide (r = 0)
      | Call.del _ _ => false) (l.map (fun d => Call.add d g (-1))) = [] := by
    intro l
    induction l with
    | nil => rfl
    | cons x t ih => simp only [List.map_cons, List.filter_cons]; rw [ih]; rfl
  rw [h1, h2, List.append_nil]

theorem dels_of_adds (a b : List (List Nat)) (g : List Nat) (r1 r2 : Int) :
    dels_of (a.map (fun d => Call.add d g r1) ++ b.map (fun d => Call.add d g r2)) = [] := by
  have h : ∀ (l : List (List Nat)) (r : Int),
      dels_of (l.map (fun d => Call.add d g r)) = [] := by
    intro l r
    induction l with
    | nil => rfl
    | cons x t ih =>
      simp only [dels_of, List.map_cons, List.filterMap_cons] at ih ⊢
      exact ih
  simp only [dels_of, List.filterMap_append] at h ⊢
  rw [h a r1, h b r2]
  rfl

/-! ## Lemmas on the timing of a batch -/

theorem add_route_keeps (T : Target) (env : Env) (sa : sockaddr) (gw : List Nat) (z y x : Nat)
    (w w1 : World) (h : add_route T env sa gw z y x w = .ok w1) :
    w1.buckets = w.buckets ∧ w1.nclock = w.nclock := by
  simp only [add_route] at h
  split_ifs at h
  simp only [Except.ok.injEq] at h
  subst h
  exact ⟨rfl, rfl⟩

theorem forLoop_keeps (body : Nat → World → Except World World)
    (hb : ∀ i w w1, body i w = .ok w1 → w1.buckets = w.buckets ∧ w1.nclock = w.nclock)
    (n : Nat) : ∀ lo w w1, forLoop body lo n w = .ok w1 →
      w1.buckets = w.buckets ∧ w1.nclock = w.nclock := by
  induction n with
  | zero =>
    intro lo w w1 h
    simp only [forLoop, Except.ok.injEq] at h
    subst h
    exact ⟨rfl, rfl⟩
  | succ n ih =>
    intro lo w w1 h
    rw [forLoop] at h
    cases hb1 : body lo w with
    | error e => rw [hb1] at h; exact Except.noConfusion h
    | ok w2 =>
      rw [hb1] at h
      obtain ⟨h1, h2⟩ := hb lo w w2 hb1
      obtain ⟨h3, h4⟩ := ih (lo + 1) w2 w1 h
      exact ⟨h3.trans h1, h4.trans h2⟩

theorem vm_veto_keeps (env : Env) (veto : Int) (w : World) :
    (vm_veto env veto w).2.buckets = w.buckets ∧ (vm_veto env veto w).2.nclock = w.nclock := by
  simp only [vm_veto]
  split_ifs <;> exact ⟨rfl, rfl⟩

/-- A batch that completes passes to `histstore` the nanoseconds field of the difference of
its two readings of the clock, and nothing of the seconds field. -/
theorem fill_batch_buckets (T : Target) (env : Env) (sa : sockaddr) (gw : List Nat)
    (veto : Int) (xroutes z y : Nat) (w w1 : World)
    (h : fill_batch T env sa gw veto xroutes z y w = .ok w1) :
    w1.buckets = histstore bucketcuts w.buckets
        (recorded_ns (env.clock w.nclock) (env.clock (w.nclock + 1)))
      ∧ w1.nclock = w.nclock + 2 := by
  obtain ⟨hv1, hv2⟩ := vm_veto_keeps env veto w
  simp only [fill_batch] at h
  cases hl : forLoop (add_route T env sa gw z y) 2 (xroutes - 2)
      { (vm_veto env veto w).2 with nclock := (vm_veto env veto w).2.nclock + 1 } with
  | error e => rw [hl] at h; exact Except.noConfusion h
  | ok w2 =>
    rw [hl] at h
    obtain ⟨h1, h2⟩ := forLoop_keeps _ (add_route_keeps T env sa gw z y) _ _ _ _ hl
    simp only [Except.ok.injEq] at h
    subst h
    simp only [recorded_ns]
    have e2 : w2.nclock = w.nclock + 1 := by rw [h2]; show _ + 1 = _; rw [hv2]
    have e1 : w2.buckets = w.buckets := by rw [h1]; exact hv1
    refine ⟨?_, ?_⟩
    · show histstore bucketcuts w2.buckets _ = _
      rw [e1, e2, hv2]
    · show w2.nclock + 1 = _
      rw [e2]

/-- For readings in range whose difference is below one second, the value recorded is the
whole elapsed time. -/
theorem recorded_ns_below_second (start stop : timespec)
    (h1 : 0 ≤ start.tv_nsec ∧ start.tv_nsec < 1000000000)
    (h2 : 0 ≤ stop.tv_nsec ∧ stop.tv_nsec < 1000000000)
    (h3 : 0 ≤ duration_ns start stop ∧ duration_ns start stop < 1000000000) :
    (recorded_ns start stop : Int) = duration_ns start stop := by
  simp only [recorded_ns, timespecsub, duration_ns] at *
  split_ifs <;> simp only <;> omega

theorem fill_rtmsg_congr (T : Target) (h1 h2 : rt_handle) (op fl : Nat)
    (hso : h1.so = h2.so) (had : h1.rtm_addrs = h2.rtm_addrs) :
    fill_rtmsg T h1 op fl = fill_rtmsg T h2 op fl := by
  obtain ⟨f1, s1, so1, a1, e1⟩ := h1
  obtain ⟨f2, s2, so2, a2, e2⟩ := h2
  simp only at hso had
  subst hso
  subst had
  rfl

theorem prepared_testBit_mono_filled (T : Target) (h : rt_handle) (d : sockaddr)
    (g : Option sockaddr) (op : Nat) (i : Nat)
    (hb : (filled h d g).rtm_addrs.testBit i = true) :
    (prepared T h d g op).rtm_addrs.testBit i = true := by
  rw [prepared_eq]
  split
  · simp only [Nat.testBit_or, hb, Bool.true_or]
  · exact hb

theorem prepared_so_dest (T : Target) (h : rt_handle) (d : sockaddr) (g : Option sockaddr)
    (op : Nat) (k : Nat) (hk1 : k < sa_len d) (hk2 : k < sizeof_sockaddr_storage) :
    (prepared T h d g op).so k = d.getD k 0 := by
  have h128 : k < 128 := hk2
  have hfilled : (filled h d g).so k = d.getD k 0 := by
    cases g with
    | none =>
      simp only [filled, fillso, memcpy, so_off, RTAX_DST, Nat.zero_mul, Nat.zero_add,
        Nat.zero_le, true_and, Nat.sub_zero]
      rw [if_pos hk1]
    | some g =>
      simp only [filled, fillso, memcpy, so_off, RTAX_DST, RTAX_GATEWAY, Nat.zero_mul,
        Nat.zero_add, Nat.zero_le, true_and, Nat.sub_zero, Nat.one_mul,
        sizeof_sockaddr_storage]
      rw [if_neg (by omega), if_pos hk1]
  rw [prepared_eq]
  split
  · simp only [memcpy, so_off, RTAX_IFP, sizeof_sockaddr_storage]
    rw [if_neg (by omega), if_neg (by omega)]
    exact hfilled
  · exact hfilled

/-- The system calls, the value returned and the error code of `libroute_modify`, in terms of
the results as the `int` that the function stores. -/
theorem libroute_modify_outcome (T : Target) (h : rt_handle) (d : sockaddr) (g : Option sockaddr)
    (op fl : Nat) (wr rd : SysResult) (reply : rt_msg_t) :
    (libroute_modify T h d g op fl wr rd reply).trace
        = Syscall.write (libroute_modify T h d g op fl wr rd reply).sent
            (libroute_modify T h d g op fl wr rd reply).sent.m_rtm.rtm_msglen
          :: (if op = T.RTM_GET ∧ 0 ≤ to_int wr.result
              then [Syscall.read (T.sizeof_rt_msghdr + sizeof_m_space)] else [])
    ∧ ((libroute_modify T h d g op fl wr rd reply).ret = -1
        ↔ (to_int wr.result < 0 ∨ (op = T.RTM_GET ∧ to_int rd.result < 0)))
    ∧ (to_int wr.result < 0 →
        libroute_errno (libroute_modify T h d g op fl wr rd reply).handle = wr.errno)
    ∧ (0 ≤ to_int wr.result → op = T.RTM_GET → to_int rd.result < 0 →
        libroute_errno (libroute_modify T h d g op fl wr rd reply).handle = rd.errno)
    ∧ ((libroute_modify T h d g op fl wr rd reply).ret ≠ -1 →
        (libroute_modify T h d g op fl wr rd reply).ret = 0
        ∧ libroute_errno (libroute_modify T h d g op fl wr rd reply).handle
            = libroute_errno h) := by
  have herr : (prepared T h d g op).errcode = h.errcode := by
    rw [prepared_eq]
    cases g <;> simp only [filled, fillso] <;> split <;> rfl
  by_cases hw : to_int wr.result < 0
  · have hr : libroute_modify T h d g op fl wr rd reply
        = { ret := -1, handle := { prepared T h d g op with errcode := wr.errno },
            rtmsg := fill_rtmsg T (prepared T h d g op) op fl,
            sent := fill_rtmsg T (prepared T h d g op) op fl,
            trace := [Syscall.write (fill_rtmsg T (prepared T h d g op) op fl)
              (fill_rtmsg T (prepared T h d g op) op fl).m_rtm.rtm_msglen] } := by
      simp only [libroute_modify, prepared]
      rw [if_pos hw]
    have hnot : ¬ (op = T.RTM_GET ∧ 0 ≤ to_int wr.result) := fun hc => by omega
    rw [hr]
    refine ⟨by rw [if_neg hnot], ?_, ?_, ?_, ?_⟩
    · simp [hw]
    · intro _; rfl
    · intro h0; omega
    · intro hne; exact absurd rfl hne
  · by_cases hg : op = T.RTM_GET
    · by_cases hrd : to_int rd.result < 0
      · have hr : libroute_modify T h d g op fl wr rd reply
            = { ret := -1, handle := { prepared T h d g op with errcode := rd.errno },
                rtmsg := reply,
                sent := fill_rtmsg T (prepared T h d g op) op fl,
                trace := [Syscall.write (fill_rtmsg T (prepared T h d g op) op fl)
                  (fill_rtmsg T (prepared T h d g op) op fl).m_rtm.rtm_msglen,
                  Syscall.read (T.sizeof_rt_msghdr + sizeof_m_space)] } := by
          simp only [libroute_modify, prepared]
          rw [if_neg hw, if_pos hg, if_pos hrd]
          rfl
        rw [hr]
        refine ⟨by rw [if_pos ⟨hg, by omega⟩], ?_, ?_, ?_, ?_⟩
        · simp [hg, hrd]
        · intro h0; exact absurd h0 hw
        · intro _ _ _; rfl
        · intro hne; exact absurd rfl hne
      · have hr : libroute_modify T h d g op fl wr rd reply
            = { ret := 0, handle := prepared T h d g op,
                rtmsg := reply,
                sent := fill_rtmsg T (prepared T h d g op) op fl,
                trace := [Syscall.write (fill_rtmsg T (prepared T h d g op) op fl)
                  (fill_rtmsg T (prepared T h d g op) op fl).m_rtm.rtm_msglen,
                  Syscall.read (T.sizeof_rt_msghdr + sizeof_m_space)] } := by
          simp only [libroute_modify, prepared]
          rw [if_neg hw, if_pos hg, if_neg hrd]
          rfl
        rw [hr]
        refine ⟨by rw [if_pos ⟨hg, by omega⟩], ?_, ?_, ?_, ?_⟩
        · simp [hw, hrd]
        · intro h0; exact absurd h0 hw
        · intro _ _ h2; exact absurd h2 hrd
        · intro _; exact ⟨rfl, herr⟩
    · have hr : libroute_modify T h d g op fl wr rd reply
          = { ret := 0, handle := prepared T h d g op,
              rtmsg := fill_rtmsg T (prepared T h d g op) op fl,
              sent := fill_rtmsg T (prepared T h d g op) op fl,
              trace := [Syscall.write (fill_rtmsg T (prepared T h d g op) op fl)
                (fill_rtmsg T (prepared T h d g op) op fl).m_rtm.rtm_msglen] } := by
        simp only [libroute_modify, prepared]
        rw [if_neg hw, if_neg hg]
      rw [hr]
      refine ⟨by rw [if_neg (fun hc => hg hc.1)], ?_, ?_, ?_, ?_⟩
      · simp [hw, hg]
      · intro h0; exact absurd h0 hw
      · intro _ h1; exact absurd h1 hg
      · intro _; exact ⟨rfl, herr⟩

/-! ## Lemmas on the messages of the load generator -/

theorem sockaddr_in_wire (T : Target) (hin : T.sizeof_sockaddr_in = 16) (a0 a1 a2 a3 : Nat) :
    sockaddr_in T [a0, a1, a2, a3] = wire_sin T [a0, a1, a2, a3] := by
  simp [sockaddr_in, wire_sin, hin, List.replicate]

theorem sa_len_wire (T : Target) (a : List Nat) : sa_len (wire_sin T a) = 16 := rfl

theorem so_bytes_eq (h : rt_handle) (off : Nat) (l : List Nat)
    (hl : ∀ k, k < l.length → h.so (off + k) = l.getD k 0) :
    so_bytes h off l.length = l := by
  apply List.ext_getElem
  · rw [so_bytes_length]
  · intro n h1 h2
    have e := so_bytes_getD h off l.length n h2
    rw [hl n h2] at e
    simp only [List.getD_eq_getElem?_getD, List.getElem?_eq_getElem h1,
      List.getElem?_eq_getElem h2, Option.getD_some] at e
    exact e

theorem SA_SIZE_sixteen (T : Target) (hT : T.wf) : SA_SIZE T 16 = 16 := by
  unfold SA_SIZE
  rcases hT.long with h | h <;> rw [h] <;> decide

theorem fillso_dst_so (h : rt_handle) (d : sockaddr) (hd : sa_len d = 16) (j : Nat) :
    (fillso h RTAX_DST d).so j = if j < 16 then d.getD j 0 else h.so j := by
  simp only [fillso, memcpy, hd, so_off, RTAX_DST, Nat.zero_mul, Nat.zero_add, Nat.zero_le,
    true_and, Nat.sub_zero]

theorem fillso_gw_so (h : rt_handle) (g : sockaddr) (hg : sa_len g = 16) (j : Nat) :
    (fillso h RTAX_GATEWAY g).so j
      = if 128 ≤ j ∧ j < 144 then g.getD (j - 128) 0 else h.so j := by
  simp only [fillso, memcpy, hg, so_off, RTAX_GATEWAY, Nat.one_mul, sizeof_sockaddr_storage]

theorem or_bits_le (a : Nat) (ha : a ≤ 3) :
    (a ||| 1 <<< RTAX_DST) ||| 1 <<< RTAX_GATEWAY = 3
      ∧ a ||| 1 <<< RTAX_DST ≤ 3
      ∧ (a ||| 1 <<< RTAX_DST).testBit 1 = a.testBit 1
      ∧ (a.testBit 1 = true → a ||| 1 <<< RTAX_DST = 3)
      ∧ (a.testBit 1 = false → a ||| 1 <<< RTAX_DST = 1) := by
  interval_cases a <;> decide

theorem wire_sin_length (T : Target) (a0 a1 a2 a3 : Nat) :
    (wire_sin T [a0, a1, a2, a3]).length = 16 := rfl

/-- The handle that an add of `routestress` leaves and the message it encodes. -/
theorem add_prepared (T : Target) (hT : T.wf) (h : rt_handle) (ha : h.rtm_addrs ≤ 3)
    (a0 a1 a2 a3 : Nat) :
    fill_rtmsg T (prepared T h (wire_sin T [a0, a1, a2, a3]) (some (wire_sin T [1, 0, 0, 1]))
        T.RTM_ADD) T.RTM_ADD (flags_gw T) = add_msg T [a0, a1, a2, a3]
      ∧ gw_inv T (prepared T h (wire_sin T [a0, a1, a2, a3]) (some (wire_sin T [1, 0, 0, 1]))
          T.RTM_ADD) true := by
  have hp : prepared T h (wire_sin T [a0, a1, a2, a3]) (some (wire_sin T [1, 0, 0, 1]))
      T.RTM_ADD = fillso (fillso h RTAX_DST (wire_sin T [a0, a1, a2, a3])) RTAX_GATEWAY
        (wire_sin T [1, 0, 0, 1]) := by
    rw [prepared_eq, if_neg (fun hc => hT.add_ne hc.1)]
    rfl
  rw [hp]
  have hbits := or_bits_le h.rtm_addrs ha
  have haddrs : (fillso (fillso h RTAX_DST (wire_sin T [a0, a1, a2, a3])) RTAX_GATEWAY
      (wire_sin T [1, 0, 0, 1])).rtm_addrs = 3 := hbits.1
  have hso_d : ∀ k, k < 16 → (fillso (fillso h RTAX_DST (wire_sin T [a0, a1, a2, a3]))
      RTAX_GATEWAY (wire_sin T [1, 0, 0, 1])).so (so_off RTAX_DST + k)
        = (wire_sin T [a0, a1, a2, a3]).getD k 0 := by
    intro k hk
    rw [fillso_gw_so _ _ (sa_len_wire T _), fillso_dst_so _ _ (sa_len_wire T _)]
    simp only [so_off, RTAX_DST, Nat.zero_mul, Nat.zero_add]
    rw [if_neg (by omega), if_pos hk]
  have hso_g : ∀ k, k < 16 → (fillso (fillso h RTAX_DST (wire_sin T [a0, a1, a2, a3]))
      RTAX_GATEWAY (wire_sin T [1, 0, 0, 1])).so (128 + k)
        = (wire_sin T [1, 0, 0, 1]).getD k 0 := by
    intro k hk
    rw [fillso_gw_so _ _ (sa_len_wire T _), if_pos (by omega), Nat.add_sub_cancel_left]
  have hle : (fillso (fillso h RTAX_DST (wire_sin T [a0, a1, a2, a3])) RTAX_GATEWAY
      (wire_sin T [1, 0, 0, 1])).rtm_addrs ≤ 3 := by omega
  have hbit : (fillso (fillso h RTAX_DST (wire_sin T [a0, a1, a2, a3])) RTAX_GATEWAY
      (wire_sin T [1, 0, 0, 1])).rtm_addrs.testBit 1 = true := by
    have e : Nat.testBit 3 1 = true := by decide
    rw [haddrs, e]
  refine ⟨?_, hle, hbit, fun _ => hso_g⟩
  have hl0 : ss_len (fillso (fillso h RTAX_DST (wire_sin T [a0, a1, a2, a3])) RTAX_GATEWAY
      (wire_sin T [1, 0, 0, 1])) RTAX_DST = 16 := by
    unfold ss_len
    have := hso_d 0 (by omega)
    rw [Nat.add_zero] at this
    rw [this]
    rfl
  have hl1 : ss_len (fillso (fillso h RTAX_DST (wire_sin T [a0, a1, a2, a3])) RTAX_GATEWAY
      (wire_sin T [1, 0, 0, 1])) RTAX_GATEWAY = 16 := by
    unfold ss_len
    have := hso_g 0 (by omega)
    rw [show so_off RTAX_GATEWAY = 128 + 0 from rfl, this]
    rfl
  have hpay : fill_payload T (fillso (fillso h RTAX_DST (wire_sin T [a0, a1, a2, a3]))
      RTAX_GATEWAY (wire_sin T [1, 0, 0, 1]))
      = wire_sin T [a0, a1, a2, a3] ++ wire_sin T [1, 0, 0, 1] := by
    rw [fill_payload_dst_gw T _ haddrs, hl0, hl1, SA_SIZE_sixteen T hT]
    have e1 := so_bytes_eq _ (so_off RTAX_DST) (wire_sin T [a0, a1, a2, a3]) hso_d
    have e2 := so_bytes_eq _ (so_off RTAX_GATEWAY) (wire_sin T [1, 0, 0, 1]) hso_g
    rw [wire_sin_length] at e1 e2
    rw [e1, e2]
  have hh := hT.hdr
  simp only [fill_rtmsg, hpay, haddrs, add_msg, wire_hdr, flags_gw]
  have hlen : (wire_sin T [a0, a1, a2, a3] ++ wire_sin T [1, 0, 0, 1]).length = 32 := rfl
  rw [hlen, Nat.mod_eq_of_lt (by omega)]
  rfl

theorem fill_payload_dst (T : Target) (h : rt_handle) (ha : h.rtm_addrs = RTA_DST) :
    fill_payload T h = so_bytes h (so_off RTAX_DST) (SA_SIZE T (ss_len h RTAX_DST)) := by
  have b0 : h.rtm_addrs.testBit RTAX_DST = true := by rw [ha]; decide
  have b1 : h.rtm_addrs.testBit RTAX_GATEWAY = false := by rw [ha]; decide
  have b2 : h.rtm_addrs.testBit RTAX_NETMASK = false := by rw [ha]; decide
  have b3 : h.rtm_addrs.testBit RTAX_GENMASK = false := by rw [ha]; decide
  have b4 : h.rtm_addrs.testBit RTAX_IFP = false := by rw [ha]; decide
  have b5 : h.rtm_addrs.testBit RTAX_IFA = false := by rw [ha]; decide
  simp only [fill_payload, RTA_DST, RTA_GATEWAY, RTA_NETMASK, RTA_GENMASK, RTA_IFP, RTA_IFA]
  rw [NEXTADDR_present T h _ _ b0, NEXTADDR_absent T h _ _ b1, NEXTADDR_absent T h _ _ b2,
    NEXTADDR_absent T h _ _ b3, NEXTADDR_absent T h _ _ b4, NEXTADDR_absent T h _ _ b5]
  rfl

/-- The handle that a delete of `routestress` leaves and the message it encodes. -/
theorem del_prepared (T : Target) (hT : T.wf) (h : rt_handle) (gw : Bool)
    (hinv : gw_inv T h gw) (a0 a1 a2 a3 : Nat) :
    fill_rtmsg T (prepared T h (wire_sin T [a0, a1, a2, a3]) none T.RTM_DELETE) T.RTM_DELETE
        (flags_gw T) = del_msg T gw [a0, a1, a2, a3]
      ∧ gw_inv T (prepared T h (wire_sin T [a0, a1, a2, a3]) none T.RTM_DELETE) gw := by
  obtain ⟨ha, hb, hg⟩ := hinv
  have hp : prepared T h (wire_sin T [a0, a1, a2, a3]) none T.RTM_DELETE
      = fillso h RTAX_DST (wire_sin T [a0, a1, a2, a3]) := by
    rw [prepared_eq, if_neg (fun hc => hT.delete_ne hc.1)]
    rfl
  rw [hp]
  have hbits := or_bits_le h.rtm_addrs ha
  have hso_d : ∀ k, k < 16 → (fillso h RTAX_DST (wire_sin T [a0, a1, a2, a3])).so
      (so_off RTAX_DST + k) = (wire_sin T [a0, a1, a2, a3]).getD k 0 := by
    intro k hk
    rw [fillso_dst_so _ _ (sa_len_wire T _)]
    simp only [so_off, RTAX_DST, Nat.zero_mul, Nat.zero_add]
    rw [if_pos hk]
  have hso_far : ∀ k, (fillso h RTAX_DST (wire_sin T [a0, a1, a2, a3])).so (128 + k)
      = h.so (128 + k) := by
    intro k
    rw [fillso_dst_so _ _ (sa_len_wire T _), if_neg (by omega)]
  have hl0 : ss_len (fillso h RTAX_DST (wire_sin T [a0, a1, a2, a3])) RTAX_DST = 16 := by
    unfold ss_len
    have := hso_d 0 (by omega)
    rw [Nat.add_zero] at this
    rw [this]
    rfl
  have hle : (fillso h RTAX_DST (wire_sin T [a0, a1, a2, a3])).rtm_addrs ≤ 3 := hbits.2.1
  have hbit : (fillso h RTAX_DST (wire_sin T [a0, a1, a2, a3])).rtm_addrs.testBit 1 = gw := by
    rw [← hb]; exact hbits.2.2.1
  have hinv2 : gw_inv T (fillso h RTAX_DST (wire_sin T [a0, a1, a2, a3])) gw :=
    ⟨hle, hbit, fun hgw k hk => by rw [hso_far]; exact hg hgw k hk⟩
  refine ⟨?_, hinv2⟩
  have hh := hT.hdr
  have e1 := so_bytes_eq _ (so_off RTAX_DST) (wire_sin T [a0, a1, a2, a3]) hso_d
  rw [wire_sin_length] at e1
  cases gw with
  | true =>
    have haddrs : (fillso h RTAX_DST (wire_sin T [a0, a1, a2, a3])).rtm_addrs = 3 :=
      hbits.2.2.2.1 hb
    have hso_g : ∀ k, k < 16 → (fillso h RTAX_DST (wire_sin T [a0, a1, a2, a3])).so
        (so_off RTAX_GATEWAY + k) = (wire_sin T [1, 0, 0, 1]).getD k 0 := by
      intro k hk
      rw [show so_off RTAX_GATEWAY = 128 from rfl, hso_far]
      exact hg rfl k hk
    have hl1 : ss_len (fillso h RTAX_DST (wire_sin T [a0, a1, a2, a3])) RTAX_GATEWAY = 16 := by
      unfold ss_len
      have := hso_g 0 (by omega)
      rw [Nat.add_zero] at this
      rw [this]
      rfl
    have e2 := so_bytes_eq _ (so_off RTAX_GATEWAY) (wire_sin T [1, 0, 0, 1]) hso_g
    rw [wire_sin_length] at e2
    have hpay : fill_payload T (fillso h RTAX_DST (wire_sin T [a0, a1, a2, a3]))
        = wire_sin T [a0, a1, a2, a3] ++ wire_sin T [1, 0, 0, 1] := by
      rw [fill_payload_dst_gw T _ haddrs, hl0, hl1, SA_SIZE_sixteen T hT, e1, e2]
    simp only [fill_rtmsg, hpay, haddrs, del_msg, wire_hdr, flags_gw, if_true]
    have hlen : (wire_sin T [a0, a1, a2, a3] ++ wire_sin T [1, 0, 0, 1]).length = 32 := rfl
    rw [hlen, Nat.mod_eq_of_lt (by omega)]
    rfl
  | false =>
    have haddrs : (fillso h RTAX_DST (wire_sin T [a0, a1, a2, a3])).rtm_addrs = 1 :=
      hbits.2.2.2.2 hb
    have hpay : fill_payload T (fillso h RTAX_DST (wire_sin T [a0, a1, a2, a3]))
        = wire_sin T [a0, a1, a2, a3] := by
      rw [fill_payload_dst T _ haddrs, hl0, SA_SIZE_sixteen T hT, e1]
    simp only [fill_rtmsg, hpay, haddrs, del_msg, wire_hdr, flags_gw]
    have hlen : (wire_sin T [a0, a1, a2, a3]).length = 16 := rfl
    rw [hlen, Nat.mod_eq_of_lt (by omega)]
    rfl

theorem gw_inv_congr (T : Target) (h1 h2 : rt_handle) (gw : Bool)
    (hso : h1.so = h2.so) (had : h1.rtm_addrs = h2.rtm_addrs) (hi : gw_inv T h2 gw) :
    gw_inv T h1 gw := by
  unfold gw_inv at *
  rw [hso, had]
  exact hi

theorem wire_of_append (T : Target) (a c : List Plan) :
    ∀ gw, wire_of T gw (a ++ c) = wire_of T gw a ++ wire_of T (gw || has_add a) c := by
  induction a with
  | nil => intro gw; simp [wire_of, has_add]
  | cons p ps ih =>
    intro gw
    cases p with
    | add d g => simp [wire_of, has_add, ih]
    | del d => simp [wire_of, has_add, ih]

theorem has_add_append (a c : List Plan) : has_add (a ++ c) = (has_add a || has_add c) := by
  induction a with
  | nil => simp [has_add]
  | cons p ps ih =>
    cases p with
    | add d g => simp [has_add]
    | del d => simp [has_add, ih]

theorem wire_ok_add (T : Target) (hT : T.wf) (hin : T.sizeof_sockaddr_in = 16) (env : Env)
    (hw : ∀ k, 0 ≤ to_int (env.write k).result) (z y x : Nat) :
    wire_ok T (add_route T env (str_to_sockaddr T gateway_addr) gateway_addr z y x)
      [Plan.add (dest_addr z y x) gateway_addr] := by
  intro w gw hinv
  have hsd : str_to_sockaddr T (dest_addr z y x) = wire_sin T [10, z, y, x] :=
    sockaddr_in_wire T hin 10 z y x
  have hsg : str_to_sockaddr T gateway_addr = wire_sin T [1, 0, 0, 1] :=
    sockaddr_in_wire T hin 1 0 0 1
  obtain ⟨hmsg, hinv2⟩ := add_prepared T hT w.handle hinv.1 10 z y x
  obtain ⟨ht, hret, _, _, _⟩ := libroute_modify_outcome T w.handle (wire_sin T [10, z, y, x])
    (some (wire_sin T [1, 0, 0, 1])) T.RTM_ADD (flags_gw T) (env.write w.nwrite) ⟨0, 0⟩
    { m_rtm := ⟨0, 0, 0, 0, 0, 0, 0⟩, m_space := [] }
  have hwk := hw w.nwrite
  have hne : ¬ (libroute_modify T w.handle (wire_sin T [10, z, y, x])
      (some (wire_sin T [1, 0, 0, 1])) T.RTM_ADD (flags_gw T) (env.write w.nwrite) ⟨0, 0⟩
      { m_rtm := ⟨0, 0, 0, 0, 0, 0, 0⟩, m_space := [] }).ret = -1 := by
    rw [hret]
    rintro (h1 | ⟨h2, _⟩)
    · omega
    · exact hT.add_ne h2
  rw [if_neg (fun hc => hT.add_ne hc.1), libroute_modify_sent, hmsg] at ht
  simp only [add_route, libroute_add, hsd, hsg]
  rw [if_neg hne]
  refine ⟨_, rfl, ?_, ?_⟩
  · show w.sock ++ _ = _
    rw [ht]
    rfl
  · show gw_inv T _ (gw || true)
    rw [Bool.or_true]
    exact gw_inv_congr T _ _ true (libroute_modify_so _ _ _ _ _ _ _ _ _)
      (libroute_modify_addrs _ _ _ _ _ _ _ _ _) hinv2

theorem wire_ok_del (T : Target) (hT : T.wf) (hin : T.sizeof_sockaddr_in = 16) (env : Env)
    (hw : ∀ k, 0 ≤ to_int (env.write k).result) (z x y : Nat) :
    wire_ok T (del_route T env z x y) [Plan.del (dest_addr z x y)] := by
  intro w gw hinv
  have hsd : str_to_sockaddr T (dest_addr z x y) = wire_sin T [10, z, x, y] :=
    sockaddr_in_wire T hin 10 z x y
  obtain ⟨hmsg, hinv2⟩ := del_prepared T hT w.handle gw hinv 10 z x y
  obtain ⟨ht, hret, _, _, _⟩ := libroute_modify_outcome T w.handle (wire_sin T [10, z, x, y])
    none T.RTM_DELETE (flags_gw T) (env.write w.nwrite) ⟨0, 0⟩
    { m_rtm := ⟨0, 0, 0, 0, 0, 0, 0⟩, m_space := [] }
  have hwk := hw w.nwrite
  have hne : ¬ (libroute_modify T w.handle (wire_sin T [10, z, x, y])
      none T.RTM_DELETE (flags_gw T) (env.write w.nwrite) ⟨0, 0⟩
      { m_rtm := ⟨0, 0, 0, 0, 0, 0, 0⟩, m_space := [] }).ret = -1 := by
    rw [hret]
    rintro (h1 | ⟨h2, _⟩)
    · omega
    · exact hT.delete_ne h2
  rw [if_neg (fun hc => hT.delete_ne hc.1), libroute_modify_sent, hmsg] at ht
  simp only [del_route, libroute_del, hsd]
  rw [if_neg hne]
  refine ⟨_, rfl, ?_, ?_⟩
  · show w.sock ++ _ = _
    rw [ht]
    rfl
  · show gw_inv T _ (gw || false)
    rw [Bool.or_false]
    exact gw_inv_congr T _ _ gw (libroute_modify_so _ _ _ _ _ _ _ _ _)
      (libroute_modify_addrs _ _ _ _ _ _ _ _ _) hinv2

theorem wire_ok_seq (T : Target) (F G : World → Except World World) (a c : List Plan)
    (hF : wire_ok T F a) (hG : wire_ok T G c) :
    wire_ok T (fun w => match F w with
      | .ok w1 => G w1
      | .error e => .error e) (a ++ c) := by
  intro w gw hinv
  obtain ⟨w1, h1, hs1, hi1⟩ := hF w gw hinv
  obtain ⟨w2, h2, hs2, hi2⟩ := hG w1 _ hi1
  refine ⟨w2, ?_, ?_, ?_⟩
  · show (match F w with
      | .ok w1 => G w1
      | .error e => .error e) = _
    rw [h1]
    exact h2
  · rw [hs2, hs1, wire_of_append, List.append_assoc]
  · rw [has_add_append, ← Bool.or_assoc]
    exact hi2

theorem wire_ok_forLoop (T : Target) (body : Nat → World → Except World World)
    (g : Nat → List Plan) (hb : ∀ i, wire_ok T (body i) (g i)) (n : Nat) :
    ∀ lo, wire_ok T (forLoop body lo n) ((span lo n).flatMap g) := by
  induction n with
  | zero =>
    intro lo w gw hinv
    exact ⟨w, rfl, by simp [span, wire_of], by simpa [span, has_add] using hinv⟩
  | succ n ih =>
    intro lo w gw hinv
    obtain ⟨w1, h1, hs, hi⟩ := wire_ok_seq T (body lo) (forLoop body (lo + 1) n) (g lo) _
      (hb lo) (ih (lo + 1)) w gw hinv
    refine ⟨w1, ?_, ?_, ?_⟩
    · rw [← h1, forLoop]
      beta_reduce
      cases body lo w <;> rfl
    · simp only [span, List.flatMap_cons]
      exact hs
    · simp only [span, List.flatMap_cons]
      exact hi

theorem vm_veto_handle (env : Env) (veto : Int) (w : World) :
    (vm_veto env veto w).2.handle = w.handle ∧ (vm_veto env veto w).2.sock = w.sock := by
  simp only [vm_veto]
  split_ifs <;> exact ⟨rfl, rfl⟩

theorem wire_ok_fill_batch (T : Target) (hT : T.wf) (hin : T.sizeof_sockaddr_in = 16)
    (env : Env) (hw : ∀ k, 0 ≤ to_int (env.write k).result) (veto : Int) (xroutes z y : Nat) :
    wire_ok T (fill_batch T env (str_to_sockaddr T gateway_addr) gateway_addr veto xroutes z y)
      ((span 2 (xroutes - 2)).flatMap fun x => [Plan.add (dest_addr z y x) gateway_addr]) := by
  intro w gw hinv
  obtain ⟨hv1, hv2⟩ := vm_veto_handle env veto w
  obtain ⟨w1, h1, hs, hi⟩ := wire_ok_forLoop T
    (add_route T env (str_to_sockaddr T gateway_addr) gateway_addr z y) _
    (fun x => wire_ok_add T hT hin env hw z y x) (xroutes - 2) 2
    { (vm_veto env veto w).2 with nclock := (vm_veto env veto w).2.nclock + 1 } gw
    (by show gw_inv T (vm_veto env veto w).2.handle gw; rw [hv1]; exact hinv)
  simp only [fill_batch]
  rw [h1]
  refine ⟨_, rfl, ?_, hi⟩
  show w1.sock = _
  rw [hs]
  show (vm_veto env veto w).2.sock ++ _ = _
  rw [hv2]

theorem plan_fill_eq (xroutes yroutes zroutes : Nat) :
    (fill_dests xroutes yroutes zroutes).map (fun d => Plan.add d gateway_addr)
      = (span 0 zroutes).flatMap (fun z => (span 0 yroutes).flatMap fun y =>
          (span 2 (xroutes - 2)).flatMap fun x => [Plan.add (dest_addr z y x) gateway_addr]) := by
  simp only [fill_dests, span_zero, span_two, List.map_flatMap, List.map_map,
    ← List.map_eq_flatMap]
  rfl

theorem plan_flush_eq (xroutes yroutes zroutes : Nat) :
    (flush_dests xroutes yroutes zroutes).map Plan.del
      = (span 0 zroutes).flatMap (fun z => (span 0 xroutes).flatMap fun x =>
          (span 2 (yroutes - 2)).flatMap fun y => [Plan.del (dest_addr z x y)]) := by
  simp only [flush_dests, span_zero, span_two, List.map_flatMap, List.map_map,
    ← List.map_eq_flatMap]
  rfl

theorem wire_of_adds (T : Target) (g : List Nat) (l : List (List Nat)) :
    ∀ gw, wire_of T gw (l.map (fun d => Plan.add d g))
      = l.map (fun d => write_of (add_msg T d)) := by
  induction l with
  | nil => intro gw; rfl
  | cons d t ih => intro gw; simp only [List.map_cons, wire_of, ih]

theorem wire_of_dels (T : Target) (l : List (List Nat)) (gw : Bool) :
    wire_of T gw (l.map Plan.del) = l.map (fun d => write_of (del_msg T gw d)) := by
  induction l with
  | nil => rfl
  | cons d t ih => simp only [List.map_cons, wire_of, ih]

theorem has_add_adds (g : List Nat) (l : List (List Nat)) :
    has_add (l.map (fun d => Plan.add d g)) = !l.isEmpty := by
  cases l <;> rfl

theorem wire_of_plan (T : Target) (xroutes yroutes zroutes : Nat) :
    wire_of T false (plan xroutes yroutes zroutes)
      = (fill_dests xroutes yroutes zroutes).map (fun d => write_of (add_msg T d))
        ++ (flush_dests xroutes yroutes zroutes).map
          (fun d => write_of (del_msg T (!(fill_dests xroutes yroutes zroutes).isEmpty) d)) := by
  unfold plan
  rw [wire_of_append, wire_of_adds, has_add_adds, Bool.false_or, wire_of_dels]

/-- On an opened session and with every `write` succeeding (as an `int`), `routestress`
returns and has issued on the control socket the messages of all the planned calls. -/
theorem routestress_ok_sock (T : Target) (hT : T.wf) (hin : T.sizeof_sockaddr_in = 16)
    (env : Env) (printhist : Bool) (veto : Int) (xroutes yroutes zroutes : Nat)
    (h0 : rt_handle) (ho : libroute_open 0 env.socket env.setsockopt = some h0)
    (hw : ∀ k, 0 ≤ to_int (env.write k).result) :
    ∃ w, routestress T env printhist veto xroutes yroutes zroutes = .ok w
      ∧ w.sock = (fill_dests xroutes yroutes zroutes).map (fun d => write_of (add_msg T d))
        ++ (flush_dests xroutes yroutes zroutes).map
          (fun d => write_of (del_msg T (!(fill_dests xroutes yroutes zroutes).isEmpty) d))
      ∧ w.calls = (fill_dests xroutes yroutes zroutes).map (fun d => Call.add d [1, 0, 0, 1] 0)
          ++ (flush_dests xroutes yroutes zroutes).map (fun d => Call.del d 0) := by
  obtain ⟨hz0, hzso⟩ := libroute_open_zero 0 env.socket env.setsockopt h0 ho
  have hinv : gw_inv T (World.init h0).handle false := by
    refine ⟨?_, ?_, fun hc => Bool.noConfusion hc⟩
    · show h0.rtm_addrs ≤ 3
      omega
    · show h0.rtm_addrs.testBit 1 = false
      rw [hz0]
      rfl
  have hfill : wire_ok T
      (forLoop (fun z => forLoop (fill_batch T env (str_to_sockaddr T gateway_addr)
        gateway_addr veto xroutes z) 0 yroutes) 0 zroutes)
      ((fill_dests xroutes yroutes zroutes).map (fun d => Plan.add d gateway_addr)) := by
    rw [plan_fill_eq]
    exact wire_ok_forLoop T _ _
      (fun z => wire_ok_forLoop T _ _
        (fun y => wire_ok_fill_batch T hT hin env hw veto xroutes z y) yroutes 0) zroutes 0
  have hflush : wire_ok T
      (forLoop (fun z => forLoop (fun x => forLoop (del_route T env z x) 2 (yroutes - 2))
        0 xroutes) 0 zroutes)
      ((flush_dests xroutes yroutes zroutes).map Plan.del) := by
    rw [plan_flush_eq]
    exact wire_ok_forLoop T _ _
      (fun z => wire_ok_forLoop T _ _
        (fun x => wire_ok_forLoop T _ _ (fun y => wire_ok_del T hT hin env hw z x y)
          (yroutes - 2) 2) xroutes 0) zroutes 0
  obtain ⟨w1, h1, hs, _⟩ := wire_ok_seq T _ _ _ _ hfill hflush (World.init h0) false hinv
  obtain ⟨w, hr, hc⟩ := routestress_ok_calls T env printhist veto xroutes yroutes zroutes h0
    ho hw
  refine ⟨w, hr, ?_, hc⟩
  have hsock : w.sock = w1.sock := by
    simp only [routestress, ho] at hr
    beta_reduce at h1
    cases hf : forLoop (fun z => forLoop (fill_batch T env (str_to_sockaddr T gateway_addr)
        gateway_addr veto xroutes z) 0 yroutes) 0 zroutes (World.init h0) with
    | error e => rw [hf] at h1; exact Except.noConfusion h1
    | ok w2 =>
      rw [hf] at h1 hr
      simp only at h1 hr
      rw [h1] at hr
      simp only at hr
      cases printhist with
      | false =>
        simp only [Bool.false_eq_true, if_false, Except.ok.injEq] at hr
        rw [← hr]
      | true =>
        simp only [if_true, Except.ok.injEq] at hr
        rw [← hr]
  rw [hsock, hs]
  show [] ++ _ = _
  rw [List.nil_append]
  exact wire_of_plan T xroutes yroutes zroutes

theorem sent_dest_add (T : Target) (a0 a1 a2 a3 : Nat) :
    sent_dest (add_msg T [a0, a1, a2, a3]) = [a0, a1, a2, a3] := rfl

theorem sent_dest_del (T : Target) (gw : Bool) (a0 a1 a2 a3 : Nat) :
    sent_dest (del_msg T gw [a0, a1, a2, a3]) = [a0, a1, a2, a3] := by
  cases gw <;> rfl

theorem del_msg_type (T : Target) (gw : Bool) (d : List Nat) :
    (del_msg T gw d).m_rtm.rtm_type = T.RTM_DELETE % 256 := by
  cases gw <;> rfl

theorem wire_dests_adds (T : Target) (ty : Nat) (l : List (List Nat))
    (hl : ∀ d, d ∈ l → ∃ a0 a1 a2 a3, d = [a0, a1, a2, a3]) :
    wire_dests ty (l.map (fun d => write_of (add_msg T d)))
      = if T.RTM_ADD % 256 = ty then l else [] := by
  induction l with
  | nil => simp [wire_dests]
  | cons d t ih =>
    obtain ⟨a0, a1, a2, a3, rfl⟩ := hl d (List.mem_cons_self _ _)
    have iht := ih (fun d hd => hl d (List.mem_cons_of_mem _ hd))
    simp only [wire_dests, List.map_cons, List.filterMap_cons, write_of] at iht ⊢
    have hty : (add_msg T [a0, a1, a2, a3]).m_rtm.rtm_type = T.RTM_ADD % 256 := rfl
    rw [hty, sent_dest_add]
    by_cases hc : T.RTM_ADD % 256 = ty
    · rw [if_pos hc] at iht ⊢
      simp only [iht, if_pos hc]
    · rw [if_neg hc] at iht ⊢
      simp only [iht, if_neg hc]

theorem wire_dests_dels (T : Target) (gw : Bool) (ty : Nat) (l : List (List Nat))
    (hl : ∀ d, d ∈ l → ∃ a0 a1 a2 a3, d = [a0, a1, a2, a3]) :
    wire_dests ty (l.map (fun d => write_of (del_msg T gw d)))
      = if T.RTM_DELETE % 256 = ty then l else [] := by
  induction l with
  | nil => simp [wire_dests]
  | cons d t ih =>
    obtain ⟨a0, a1, a2, a3, rfl⟩ := hl d (List.mem_cons_self _ _)
    have iht := ih (fun d hd => hl d (List.mem_cons_of_mem _ hd))
    simp only [wire_dests, List.map_cons, List.filterMap_cons, write_of] at iht ⊢
    rw [del_msg_type, sent_dest_del]
    by_cases hc : T.RTM_DELETE % 256 = ty
    · rw [if_pos hc] at iht ⊢
      simp only [iht, if_pos hc]
    · rw [if_neg hc] at iht ⊢
      simp only [iht, if_neg hc]

theorem fill_dests_shape (x y z : Nat) (d : List Nat) (hd : d ∈ fill_dests x y z) :
    ∃ a0 a1 a2 a3, d = [a0, a1, a2, a3] := by
  rw [mem_fill_dests] at hd
  obtain ⟨zi, yi, xi, _, _, _, _, rfl⟩ := hd
  exact ⟨10, zi, yi, xi, rfl⟩

theorem flush_dests_shape (x y z : Nat) (d : List Nat) (hd : d ∈ flush_dests x y z) :
    ∃ a0 a1 a2 a3, d = [a0, a1, a2, a3] := by
  rw [mem_flush_dests] at hd
  obtain ⟨zi, xi, yi, _, _, _, _, rfl⟩ := hd
  exact ⟨10, zi, xi, yi, rfl⟩

theorem env_good_write (k : Nat) :
    0 ≤ (env_good.write k).result ∧ (env_good.write k).result < 2 ^ 31 := by
  show (0 : Int) ≤ 168 ∧ (168 : Int) < 2 ^ 31
  decide

theorem env_good_write_int (k : Nat) : 0 ≤ to_int (env_good.write k).result := by
  show 0 ≤ to_int 168
  decide

/-! ## Claims -/

/-- C1: for every handle state, operation and flags, the message built by `fill_rtmsg` has
`rtm_msglen` equal to the header size plus the sum, over exactly the present slots among the
six roles, of the slot size `SA_SIZE` of the stored length; with no slot present it is the
header size. -/
theorem C1_msglen (T : Target) (hT : T.wf) (h : rt_handle) (operation flags : Nat) :
    (fill_rtmsg T h operation flags).m_rtm.rtm_msglen
        = T.sizeof_rt_msghdr + present_sizes T h
      ∧ ((∀ i, i < 6 → present h i = false) →
          (fill_rtmsg T h operation flags).m_rtm.rtm_msglen = T.sizeof_rt_msghdr) := by
  have hlen : (fill_rtmsg T h operation flags).m_rtm.rtm_msglen
      = T.sizeof_rt_msghdr + present_sizes T h := by
    have h0 := slot_size_le T hT h 0
    have h1 := slot_size_le T hT h 1
    have h2 := slot_size_le T hT h 2
    have h3 := slot_size_le T hT h 3
    have h4 := slot_size_le T hT h 4
    have h5 := slot_size_le T hT h 5
    have hh := hT.hdr
    simp only [fill_rtmsg]
    rw [fill_payload_length, present_sizes_eq]
    apply Nat.mod_eq_of_lt
    omega
  refine ⟨hlen, ?_⟩
  intro hno
  rw [hlen, present_sizes_eq]
  simp [slot_size, hno]

theorem freebsd64_wf : freebsd64.wf :=
  { long := Or.inr rfl
    hdr := by decide
    af_link := by decide
    dl := by decide
    add_ne := by decide
    delete_ne := by decide
    change_ne := by decide }

/-- C1 at a handle with destination and gateway present, sixteen bytes each: 152 + 32. -/
theorem C1_msglen_witness :
    (fill_rtmsg freebsd64
        { rt_handle.zero with rtm_addrs := 3, so := fun j => if j = 0 ∨ j = 128 then 16 else 0 }
        1 0).m_rtm.rtm_msglen = 184 :=
  (C1_msglen freebsd64 freebsd64_wf _ 1 0).1.trans (by decide)

theorem SA_SIZE_values : SA_SIZE freebsd64 0 = 8 ∧ SA_SIZE freebsd64 16 = 16 ∧
    SA_SIZE freebsd64 54 = 56 ∧ SA_SIZE freebsd64 28 = 32 := by decide

set_option maxRecDepth 100000 in
/-- On the targets considered, the rounding of `SA_SIZE` is the bit formula of the platform
macro, `1 + ((len - 1) | (sizeof(long) - 1))`. -/
theorem SA_SIZE_bits (T : Target) (hT : T.wf) (len : Nat) (h0 : 0 < len) (hl : len < 256) :
    SA_SIZE T len = 1 + ((len - 1) ||| (T.sizeof_long - 1)) := by
  have h4 : ∀ n, n < 256 → 0 < n → (n + 4 - 1) / 4 * 4 = 1 + ((n - 1) ||| (4 - 1)) := by
    decide
  have h8 : ∀ n, n < 256 → 0 < n → (n + 8 - 1) / 8 * 8 = 1 + ((n - 1) ||| (8 - 1)) := by
    decide
  unfold SA_SIZE
  rw [if_neg (by omega)]
  rcases hT.long with h | h <;> rw [h]
  · exact h4 len hl h0
  · exact h8 len hl h0

/-- C2: on a session that `libroute_open` returned, for every sequence of add, change, delete
and get calls, whatever the socket answers, the presence bitmask of each encoded message has
exactly the bits of the roles assigned by the calls made so far; a call never clears a bit
of any handle; and after `add(d1, g)` the message of `delete(d2)` has the destination and
gateway bits and carries the bytes of `g` in the gateway position, for `d2` of a length
between 1 and the slot size. -/
theorem C2_presence (T : Target) (hT : T.wf) (fib : Int) (socket setsockopt : SysResult)
    (h0 : rt_handle) (ho : libroute_open fib socket setsockopt = some h0) :
    (∀ (es : List Exchange) (k : Nat) (r : ModifyResult), (session T h0 es)[k]? = some r →
        ∀ i, r.sent.m_rtm.rtm_addrs.testBit i = true ↔ i ∈ roles_written (es.take (k + 1)))
    ∧ (∀ (h : rt_handle) (e : Exchange) (i : Nat), h.rtm_addrs.testBit i = true →
        (perform T h e).handle.rtm_addrs.testBit i = true
          ∧ (perform T h e).sent.m_rtm.rtm_addrs.testBit i = true)
    ∧ (∀ (d1 g d2 : sockaddr) (x1 x2 : Exchange),
        x1.req = .add d1 (some g) → x2.req = .del d2 →
        0 < sa_len d2 → sa_len d2 ≤ sizeof_sockaddr_storage →
        ∀ r, (session T h0 [x1, x2])[1]? = some r →
          r.sent.m_rtm.rtm_addrs = RTA_DST ||| RTA_GATEWAY
            ∧ ∀ k, k < sa_len g →
                r.sent.m_space.getD (SA_SIZE T (sa_len d2) + k) 0 = g.getD k 0) := by
  obtain ⟨ha, hz⟩ := libroute_open_zero fib socket setsockopt h0 ho
  refine ⟨?_, ?_, ?_⟩
  · intro es k r hk i
    rw [session_bits T hT es h0 (ifp_inv_of_zero h0 hz) k r hk i, ha]
    simp
  · intro h e i hb
    have := perform_testBit_mono T h e i hb
    exact ⟨this, by rw [perform_sent_addrs]; exact this⟩
  · intro d1 g d2 x1 x2 hx1 hx2 hpos hle r hr
    simp only [session, List.getElem?_cons_succ, List.getElem?_cons_zero,
      Option.some.injEq] at hr
    subst hr
    exact add_then_del T hT h0 hz ha d1 g d2 x1 x2 hx1 hx2 ⟨hpos, hle⟩

/-- C2 on the session opened on descriptor 3: after `add(10.0.0.5, 1.0.0.1)`, the message of
`delete(10.0.0.6)` has the bits of the destination and of the gateway, and no other. -/
theorem C2_presence_witness :
    libroute_open 0 ⟨3, 0⟩ ⟨0, 0⟩ = some opened ∧
    ∀ r, (session freebsd64 opened
          [Exchange.good (.add (sockaddr_in freebsd64 [10, 0, 0, 5])
              (some (sockaddr_in freebsd64 [1, 0, 0, 1]))),
           Exchange.good (.del (sockaddr_in freebsd64 [10, 0, 0, 6]))])[1]? = some r →
      (∀ i, r.sent.m_rtm.rtm_addrs.testBit i = true ↔ i ∈ [RTAX_DST, RTAX_GATEWAY, RTAX_DST])
      ∧ r.sent.m_rtm.rtm_addrs = 3
      ∧ ∀ k, k < 16 →
          r.sent.m_space.getD (16 + k) 0 = (sockaddr_in freebsd64 [1, 0, 0, 1]).getD k 0 :=
  ⟨rfl, fun r hr =>
    ⟨(C2_presence freebsd64 freebsd64_wf 0 ⟨3, 0⟩ ⟨0, 0⟩ opened rfl).1 _ 1 r hr,
     ((C2_presence freebsd64 freebsd64_wf 0 ⟨3, 0⟩ ⟨0, 0⟩ opened rfl).2.2
        (sockaddr_in freebsd64 [10, 0, 0, 5]) (sockaddr_in freebsd64 [1, 0, 0, 1])
        (sockaddr_in freebsd64 [10, 0, 0, 6]) _ _ rfl rfl (by decide) (by decide) r hr).1,
     ((C2_presence freebsd64 freebsd64_wf 0 ⟨3, 0⟩ ⟨0, 0⟩ opened rfl).2.2
        (sockaddr_in freebsd64 [10, 0, 0, 5]) (sockaddr_in freebsd64 [1, 0, 0, 1])
        (sockaddr_in freebsd64 [10, 0, 0, 6]) _ _ rfl rfl (by decide) (by decide) r hr).2⟩⟩

/-- C3 (the code departs from the claim): every message that `fill_rtmsg` builds has sequence
number 1, so the second of two messages built one after the other never has the sequence
number of the first plus one; in particular the add and the delete of one session both carry
sequence number 1. -/
theorem C3_sequence_is_always_one :
    (∀ (T : Target) (h1 h2 : rt_handle) (op1 op2 fl1 fl2 : Nat),
        (fill_rtmsg T h1 op1 fl1).m_rtm.rtm_seq = 1
          ∧ (fill_rtmsg T h2 op2 fl2).m_rtm.rtm_seq = 1
          ∧ (fill_rtmsg T h2 op2 fl2).m_rtm.rtm_seq
              ≠ (fill_rtmsg T h1 op1 fl1).m_rtm.rtm_seq + 1)
    ∧ (session freebsd64 opened
          [Exchange.good (.add (sockaddr_in freebsd64 [10, 0, 0, 5])
              (some (sockaddr_in freebsd64 [1, 0, 0, 1]))),
           Exchange.good (.del (sockaddr_in freebsd64 [10, 0, 0, 5]))]).map
        (fun r => r.sent.m_rtm.rtm_seq) = [1, 1] := by
  refine ⟨fun T h1 h2 op1 op2 fl1 fl2 => ⟨rfl, rfl, ?_⟩, ?_⟩
  · show ((0 : Int) + 1) ≠ (0 + 1) + 1
    decide
  simp only [session, perform, Exchange.good, libroute_add, libroute_del,
    libroute_modify_sent, List.map_cons, List.map_nil]
  rfl

/-- C4, as stated, fails: on a fresh session a lookup stores a placeholder whose length field
is `sizeof(struct sockaddr_dl)`, 54 here, not zero, and the lookup message is 152 + 16 + 56
bytes long, the last 56 being the placeholder. -/
theorem C4_placeholder_length_not_zero :
    ss_family opened RTAX_IFP = 0
      ∧ ss_len (libroute_get freebsd64 opened (sockaddr_in freebsd64 [10, 0, 0, 5])
          ⟨0, 0⟩ ⟨0, 0⟩ (Exchange.good (.get [])).reply).handle RTAX_IFP = 54
      ∧ ¬ (ss_len (libroute_get freebsd64 opened (sockaddr_in freebsd64 [10, 0, 0, 5])
          ⟨0, 0⟩ ⟨0, 0⟩ (Exchange.good (.get [])).reply).handle RTAX_IFP = 0)
      ∧ (libroute_get freebsd64 opened (sockaddr_in freebsd64 [10, 0, 0, 5])
          ⟨0, 0⟩ ⟨0, 0⟩ (Exchange.good (.get [])).reply).sent.m_rtm.rtm_msglen = 224 := by
  refine ⟨by decide, by decide, by decide, by decide⟩

/-- C4, amended: when the interface-pointer slot has family zero, `libroute_modify` with
operation `RTM_GET` stores in that slot the family `AF_LINK` and the length
`sizeof(struct sockaddr_dl)`, leaves the other bytes of the slot as they were, sets the
interface-pointer bit in the handle and in the encoded message, and the message carries the
slot, `SA_SIZE(sizeof(struct sockaddr_dl))` bytes of it; when the family is not zero the slot
and the bit are left as they are; and with operation add, change or delete the slot and the
bit are left as they are. -/
theorem C4_get_placeholder (T : Target) (hT : T.wf) (h : rt_handle) (d : sockaddr)
    (g : Option sockaddr) (fl : Nat) (wr rd : SysResult) (reply : rt_msg_t) :
    (ss_family h RTAX_IFP = 0 →
        ss_family (libroute_modify T h d g T.RTM_GET fl wr rd reply).handle RTAX_IFP = T.AF_LINK
        ∧ ss_len (libroute_modify T h d g T.RTM_GET fl wr rd reply).handle RTAX_IFP
            = T.sizeof_sockaddr_dl
        ∧ (∀ j, 2 ≤ j →
            (libroute_modify T h d g T.RTM_GET fl wr rd reply).handle.so (so_off RTAX_IFP + j)
              = h.so (so_off RTAX_IFP + j))
        ∧ (libroute_modify T h d g T.RTM_GET fl wr rd reply).handle.rtm_addrs.testBit RTAX_IFP
            = true
        ∧ (libroute_modify T h d g T.RTM_GET fl wr rd reply).sent.m_rtm.rtm_addrs.testBit
            RTAX_IFP = true
        ∧ ∃ pre post, (libroute_modify T h d g T.RTM_GET fl wr rd reply).sent.m_space
            = pre ++ so_bytes (libroute_modify T h d g T.RTM_GET fl wr rd reply).handle
                (so_off RTAX_IFP) (SA_SIZE T T.sizeof_sockaddr_dl) ++ post)
    ∧ (ss_family h RTAX_IFP ≠ 0 → ∀ j, so_off RTAX_IFP ≤ j →
        (libroute_modify T h d g T.RTM_GET fl wr rd reply).handle.so j = h.so j
        ∧ (libroute_modify T h d g T.RTM_GET fl wr rd reply).handle.rtm_addrs.testBit RTAX_IFP
            = h.rtm_addrs.testBit RTAX_IFP)
    ∧ (∀ op, op = T.RTM_ADD ∨ op = T.RTM_CHANGE ∨ op = T.RTM_DELETE →
        ∀ j, so_off RTAX_IFP ≤ j →
        (libroute_modify T h d g op fl wr rd reply).handle.so j = h.so j
        ∧ (libroute_modify T h d g op fl wr rd reply).handle.rtm_addrs.testBit RTAX_IFP
            = h.rtm_addrs.testBit RTAX_IFP) := by
  have hoff : so_off RTAX_IFP = 512 := rfl
  refine ⟨?_, ?_, ?_⟩
  · intro hf
    obtain ⟨hso, hadd⟩ := libroute_modify_get_zero T h d g hf
    have hbit : (prepared T h d g T.RTM_GET).rtm_addrs.testBit RTAX_IFP = true := by
      rw [hadd, Nat.testBit_or, testBit_RTA_IFP]
      simp [RTAX_IFP]
    have hlen : ss_len (libroute_modify T h d g T.RTM_GET fl wr rd reply).handle RTAX_IFP
        = T.sizeof_sockaddr_dl := by
      simp only [ss_len, libroute_modify_so, hso, memcpy, hoff]
      rw [if_pos (by omega)]
      simp only [Nat.sub_self, List.getD_cons_zero, Nat.mod_mod]
      exact Nat.mod_eq_of_lt hT.dl.2
    refine ⟨?_, hlen, ?_, ?_, ?_, ?_⟩
    · simp only [ss_family, libroute_modify_so, hso, memcpy, hoff]
      rw [if_neg (by omega), if_pos (by omega)]
      simp only [Nat.sub_self, List.getD_cons_zero, Nat.mod_mod]
      exact Nat.mod_eq_of_lt hT.af_link.2
    · intro j hj
      simp only [libroute_modify_so, hso, memcpy, hoff]
      rw [if_neg (by omega), if_neg (by omega)]
      exact filled_so_far h d g _ (by omega)
    · rw [libroute_modify_addrs]; exact hbit
    · rw [libroute_modify_sent]; exact hbit
    · refine ⟨slot_seg T (prepared T h d g T.RTM_GET) 0 ++ slot_seg T (prepared T h d g T.RTM_GET) 1
          ++ slot_seg T (prepared T h d g T.RTM_GET) 2 ++ slot_seg T (prepared T h d g T.RTM_GET) 3,
        slot_seg T (prepared T h d g T.RTM_GET) 5
          ++ List.replicate (sizeof_m_space - (fill_payload T (prepared T h d g T.RTM_GET)).length) 0,
        ?_⟩
      have hseg : slot_seg T (prepared T h d g T.RTM_GET) 4
          = so_bytes (libroute_modify T h d g T.RTM_GET fl wr rd reply).handle
              (so_off RTAX_IFP) (SA_SIZE T T.sizeof_sockaddr_dl) := by
        have hbit4 : (prepared T h d g T.RTM_GET).rtm_addrs.testBit 4 = true := hbit
        unfold slot_seg
        rw [if_pos hbit4, ← hlen]
        simp only [so_bytes, ss_len, libroute_modify_so]
        rfl
      rw [libroute_modify_sent, ← hseg]
      simp only [fill_rtmsg]
      rw [fill_payload_segs]
      simp only [List.append_assoc]
  · intro hf j hj
    rw [libroute_modify_so, libroute_modify_addrs]
    exact prepared_so_far T h d g _ (Or.inr hf) j (by omega)
  · intro op hop j hj
    rw [libroute_modify_so, libroute_modify_addrs]
    refine prepared_so_far T h d g op (Or.inl ?_) j (by omega)
    rcases hop with ho | ho | ho
    · rw [ho]; exact hT.add_ne
    · rw [ho]; exact hT.change_ne
    · rw [ho]; exact hT.delete_ne

/-- C4, amended, on a fresh session: the lookup stores family 18 and length 54. -/
theorem C4_get_placeholder_witness :
    freebsd64.wf ∧ ss_family opened RTAX_IFP = 0
      ∧ ss_family (libroute_modify freebsd64 opened (sockaddr_in freebsd64 [10, 0, 0, 5]) none
          freebsd64.RTM_GET (flags_get freebsd64) ⟨0, 0⟩ ⟨0, 0⟩
          (Exchange.good (.get [])).reply).handle RTAX_IFP = 18
      ∧ ss_len (libroute_modify freebsd64 opened (sockaddr_in freebsd64 [10, 0, 0, 5]) none
          freebsd64.RTM_GET (flags_get freebsd64) ⟨0, 0⟩ ⟨0, 0⟩
          (Exchange.good (.get [])).reply).handle RTAX_IFP = 54 :=
  ⟨freebsd64_wf, by decide,
    ((C4_get_placeholder freebsd64 freebsd64_wf opened (sockaddr_in freebsd64 [10, 0, 0, 5]) none
      (flags_get freebsd64) ⟨0, 0⟩ ⟨0, 0⟩ (Exchange.good (.get [])).reply).1 (by decide)).1,
    ((C4_get_placeholder freebsd64 freebsd64_wf opened (sockaddr_in freebsd64 [10, 0, 0, 5]) none
      (flags_get freebsd64) ⟨0, 0⟩ ⟨0, 0⟩ (Exchange.good (.get [])).reply).1 (by decide)).2.1⟩

/-- C5: for results of `write` and `read` that an `int` holds, whatever the handle, the
addresses, the operation and the flags, `libroute_modify` issues exactly one `write`, of the
message that `fill_rtmsg` encodes from the handle it leaves, with its `rtm_msglen` as length:
the message has the operation as type, the flags given and the presence bitmask of the
handle, in which the destination bit is set (and the gateway bit when a gateway is given),
and its payload starts with the destination slot, which holds the bytes of the destination;
the `write` is followed by exactly one `read` when the operation is `RTM_GET` and the result
of `write` is not negative, and by nothing otherwise; the function returns -1 exactly when
the result of `write` is negative or the operation is `RTM_GET` and the result of `read` is
negative, and then `errcode` is the `errno` of the call that failed; otherwise it returns 0
and `errcode` is what it was. -/
theorem C5_modify_exchange (T : Target) (h : rt_handle) (d : sockaddr) (g : Option sockaddr)
    (op fl : Nat) (wr rd : SysResult) (reply : rt_msg_t)
    (hwr : fits_int wr.result) (hrd : fits_int rd.result) :
    (libroute_modify T h d g op fl wr rd reply).trace
        = Syscall.write (fill_rtmsg T (libroute_modify T h d g op fl wr rd reply).handle op fl)
            (fill_rtmsg T (libroute_modify T h d g op fl wr rd reply).handle op fl).m_rtm.rtm_msglen
          :: (if op = T.RTM_GET ∧ 0 ≤ wr.result
              then [Syscall.read (T.sizeof_rt_msghdr + sizeof_m_space)] else [])
    ∧ (fill_rtmsg T (libroute_modify T h d g op fl wr rd reply).handle op fl).m_rtm.rtm_type
        = op % 256
    ∧ (fill_rtmsg T (libroute_modify T h d g op fl wr rd reply).handle op fl).m_rtm.rtm_flags
        = fl
    ∧ (fill_rtmsg T (libroute_modify T h d g op fl wr rd reply).handle op fl).m_rtm.rtm_addrs
        = (libroute_modify T h d g op fl wr rd reply).handle.rtm_addrs
    ∧ (libroute_modify T h d g op fl wr rd reply).handle.rtm_addrs.testBit RTAX_DST = true
    ∧ (g.isSome = true →
        (libroute_modify T h d g op fl wr rd reply).handle.rtm_addrs.testBit RTAX_GATEWAY = true)
    ∧ (∀ k, k < sa_len d → k < sizeof_sockaddr_storage →
        (libroute_modify T h d g op fl wr rd reply).handle.so k = d.getD k 0)
    ∧ (∀ k, k < SA_SIZE T (ss_len (libroute_modify T h d g op fl wr rd reply).handle RTAX_DST) →
        (fill_rtmsg T (libroute_modify T h d g op fl wr rd reply).handle op fl).m_space.getD k 0
          = (libroute_modify T h d g op fl wr rd reply).handle.so k)
    ∧ ((libroute_modify T h d g op fl wr rd reply).ret = -1
        ↔ (wr.result < 0 ∨ (op = T.RTM_GET ∧ rd.result < 0)))
    ∧ (wr.result < 0 →
        libroute_errno (libroute_modify T h d g op fl wr rd reply).handle = wr.errno)
    ∧ (0 ≤ wr.result → op = T.RTM_GET → rd.result < 0 →
        libroute_errno (libroute_modify T h d g op fl wr rd reply).handle = rd.errno)
    ∧ ((libroute_modify T h d g op fl wr rd reply).ret ≠ -1 →
        (libroute_modify T h d g op fl wr rd reply).ret = 0
        ∧ libroute_errno (libroute_modify T h d g op fl wr rd reply).handle
            = libroute_errno h) := by
  obtain ⟨ht, hret, he1, he2, he3⟩ := libroute_modify_outcome T h d g op fl wr rd reply
  rw [to_int_of_fits _ hwr] at ht hret he1 he2
  rw [to_int_of_fits _ hrd] at hret he2
  have hso := libroute_modify_so T h d g op fl wr rd reply
  have had := libroute_modify_addrs T h d g op fl wr rd reply
  have hmsg : fill_rtmsg T (libroute_modify T h d g op fl wr rd reply).handle op fl
      = (libroute_modify T h d g op fl wr rd reply).sent := by
    rw [libroute_modify_sent]
    exact fill_rtmsg_congr T _ _ op fl hso had
  have hb0 : (libroute_modify T h d g op fl wr rd reply).handle.rtm_addrs.testBit RTAX_DST
      = true := by
    rw [had]
    apply prepared_testBit_mono_filled
    rw [filled_testBit]
    simp [RTAX_DST]
  refine ⟨by rw [hmsg]; exact ht, rfl, rfl, rfl, hb0, ?_, ?_, ?_, hret, he1, he2, he3⟩
  · intro hg
    rw [had]
    apply prepared_testBit_mono_filled
    rw [filled_testBit]
    simp [RTAX_GATEWAY, hg]
  · intro k hk1 hk2
    rw [hso]
    exact prepared_so_dest T h d g op k hk1 hk2
  · intro k hk
    simp only [fill_rtmsg]
    rw [fill_payload_segs]
    have hb0z : (libroute_modify T h d g op fl wr rd reply).handle.rtm_addrs.testBit 0
        = true := hb0
    have hseg : slot_seg T (libroute_modify T h d g op fl wr rd reply).handle 0
        = so_bytes (libroute_modify T h d g op fl wr rd reply).handle (so_off RTAX_DST)
            (SA_SIZE T (ss_len (libroute_modify T h d g op fl wr rd reply).handle RTAX_DST)) := by
      unfold slot_seg
      rw [if_pos hb0z]
      rfl
    rw [hseg]
    simp only [List.append_assoc]
    rw [List.getD_append _ _ _ _ (by rw [so_bytes_length]; exact hk),
      so_bytes_getD _ _ _ _ hk]
    simp [so_off, RTAX_DST]

/-- C5 for a lookup whose `write` gives 168 and whose `read` fails with `errno` 3: the value
returned is -1 and the error code is 3. -/
theorem C5_modify_exchange_witness :
    (libroute_modify freebsd64 opened (sockaddr_in freebsd64 [10, 0, 0, 5]) none
        freebsd64.RTM_GET (flags_get freebsd64) ⟨168, 0⟩ ⟨-1, 3⟩
        (Exchange.good (.get [])).reply).ret = -1
    ∧ libroute_errno (libroute_modify freebsd64 opened (sockaddr_in freebsd64 [10, 0, 0, 5]) none
        freebsd64.RTM_GET (flags_get freebsd64) ⟨168, 0⟩ ⟨-1, 3⟩
        (Exchange.good (.get [])).reply).handle = 3 :=
  ⟨((C5_modify_exchange freebsd64 opened (sockaddr_in freebsd64 [10, 0, 0, 5]) none
      freebsd64.RTM_GET (flags_get freebsd64) ⟨168, 0⟩ ⟨-1, 3⟩ (Exchange.good (.get [])).reply
      ⟨by decide, by decide⟩ ⟨by decide, by decide⟩).2.2.2.2.2.2.2.2.1).2
      (Or.inr ⟨rfl, by decide⟩),
   (C5_modify_exchange freebsd64 opened (sockaddr_in freebsd64 [10, 0, 0, 5]) none
      freebsd64.RTM_GET (flags_get freebsd64) ⟨168, 0⟩ ⟨-1, 3⟩ (Exchange.good (.get [])).reply
      ⟨by decide, by decide⟩ ⟨by decide, by decide⟩).2.2.2.2.2.2.2.2.2.2.1
      (by decide) rfl (by decide)⟩

/-- C6: for every value and every bucket array, `histstore` with the fixed bounds increments
the bucket of the least index whose bound exceeds the value, and bucket 10 when no bound
does; every value of at least 10 ms goes to bucket 10; and the index chosen does not decrease
when the value grows. -/
theorem C6_histstore_bucket (v : Nat) (b : List Nat) :
    histstore bucketcuts b v = bump b (bucket_of v)
    ∧ bucket_of v ≤ 10
    ∧ (∀ i, i < 11 → v < bucketcuts.getD i 0 → (∀ j, j < i → bucketcuts.getD j 0 ≤ v) →
        bucket_of v = i)
    ∧ ((∀ i, i < 11 → bucketcuts.getD i 0 ≤ v) → bucket_of v = 10)
    ∧ (100 * ONEMS ≤ v → bucket_of v = 10)
    ∧ (10 * ONEMS ≤ v → bucket_of v = 10)
    ∧ ∀ v2, v < v2 → bucket_of v ≤ bucket_of v2 := by
  have hb : ∀ w, bucket_of w = min (w / 1000000) 10 := fun w => by
    rw [bucket_of_eq, bucket_steps_eq]
  refine ⟨by rw [histstore_eq, bucket_of_eq], by rw [hb]; omega, ?_, ?_, ?_, ?_, ?_⟩
  · intro i hi hlt hge
    rw [hb]
    by_cases h10 : i < 10
    · rw [bucketcuts_getD_lt i h10] at hlt
      rcases Nat.eq_zero_or_pos i with h0 | h0
      · omega
      · have := hge (i - 1) (by omega)
        rw [bucketcuts_getD_lt (i - 1) (by omega)] at this
        have e : i - 1 + 1 = i := by omega
        rw [e] at this
        omega
    · have e : i = 10 := by omega
      have := hge 9 (by omega)
      rw [bucketcuts_getD_lt 9 (by omega)] at this
      omega
  · intro hall
    have := hall 9 (by omega)
    rw [bucketcuts_getD_lt 9 (by omega)] at this
    rw [hb]; omega
  · intro h
    have : (100 : Nat) * ONEMS = 100000000 := by decide
    rw [hb]; omega
  · intro h
    have : (10 : Nat) * ONEMS = 10000000 := by decide
    rw [hb]; omega
  · intro v2 hlt
    rw [hb, hb]
    have : v / 1000000 ≤ v2 / 1000000 := Nat.div_le_div_right (by omega)
    omega

/-- C7: from eleven zeroed buckets, after `histstore` has been called on each of the values of
a list of fewer than 2^64 values, the bucket counts add up to the number of values; and a call
on eleven buckets increments one of them by one (modulo 2^64) and leaves the ten others as
they were. -/
theorem C7_histogram_total (vs : List Nat) (hN : vs.length < 2 ^ 64) :
    (vs.foldl (histstore bucketcuts) (List.replicate 11 0)).sum = vs.length
    ∧ (vs.foldl (histstore bucketcuts) (List.replicate 11 0)).length = 11
    ∧ ∀ (b : List Nat) (v : Nat), b.length = 11 →
        (histstore bucketcuts b v).length = 11
        ∧ ∃ i, i < 11 ∧ ∀ j, j < 11 →
            (histstore bucketcuts b v).getD j 0
              = if j = i then (b.getD j 0 + 1) % 2 ^ 64 else b.getD j 0 := by
  have h0 : (List.replicate 11 0).sum = 0 := by decide
  obtain ⟨h1, h2⟩ := histstore_fold vs (List.replicate 11 0) (by simp) (by rw [h0]; omega)
  refine ⟨by rw [h2, h0]; omega, h1, ?_⟩
  intro b v hb
  have hi : bucket_steps v < b.length := by have := bucket_steps_le v; omega
  refine ⟨by rw [histstore_eq, bump_length]; exact hb, bucket_steps v, by omega, ?_⟩
  intro j _
  rw [histstore_eq]
  exact bump_getD b _ j hi

/-- C7 on three values, one below 1 ms, one of 10 ms and one of a second: the counts add up
to three. -/
theorem C7_histogram_total_witness :
    ([999999, 10000000, 1000000000].foldl (histstore bucketcuts) (List.replicate 11 0)).sum = 3 :=
  (C7_histogram_total [999999, 10000000, 1000000000] (by decide)).1

/-- C8: for counts up to 254, on a session that opened and a control socket on which every
`write` succeeds, `routestress` returns after having written on the socket, in this order,
the add message of `10.z.y.x` via 1.0.0.1 for `z` below `zroutes`, `y` below `yroutes` and
`x` from 2 below `xroutes` (`z` outermost, `x` innermost), then the delete message of
`10.z.x.y` for `z` below `zroutes`, `x` below `xroutes` and `y` from 2 below `yroutes`, each
library call returning 0; an add message carries the destination record and the gateway
record, a delete message the destination record (followed by the gateway record left in the
session when an add was made); every octet is below 256; there are
`zroutes * yroutes * (xroutes - 2)` adds and `zroutes * xroutes * (yroutes - 2)` deletes; for
5, 3, 1 these are the nine adds `10.0.{0,1,2}.{2,3,4}` and the five deletes
`10.0.{0..4}.2`. -/
theorem C8_routestress_calls (T : Target) (hT : T.wf) (hin : T.sizeof_sockaddr_in = 16)
    (env : Env) (printhist : Bool) (veto : Int) (xroutes yroutes zroutes : Nat)
    (hx : xroutes ≤ 254) (hy : yroutes ≤ 254) (hz : zroutes ≤ 254) (h0 : rt_handle)
    (ho : libroute_open 0 env.socket env.setsockopt = some h0)
    (hw : ∀ k, 0 ≤ (env.write k).result ∧ (env.write k).result < 2 ^ 31) :
    (∃ w, routestress T env printhist veto xroutes yroutes zroutes = .ok w
        ∧ w.sock = (fill_dests xroutes yroutes zroutes).map (fun d => write_of (add_msg T d))
            ++ (flush_dests xroutes yroutes zroutes).map
              (fun d => write_of (del_msg T (!(fill_dests xroutes yroutes zroutes).isEmpty) d))
        ∧ w.calls = (fill_dests xroutes yroutes zroutes).map (fun d => Call.add d [1, 0, 0, 1] 0)
            ++ (flush_dests xroutes yroutes zroutes).map (fun d => Call.del d 0))
    ∧ (∀ d, (add_msg T d).m_space
          = [16, T.AF_INET % 256, 0, 0] ++ d ++ [0, 0, 0, 0, 0, 0, 0, 0]
            ++ ([16, T.AF_INET % 256, 0, 0, 1, 0, 0, 1, 0, 0, 0, 0, 0, 0, 0, 0]
              ++ List.replicate 480 0)
        ∧ (add_msg T d).m_rtm.rtm_type = T.RTM_ADD % 256
        ∧ (add_msg T d).m_rtm.rtm_addrs = RTA_DST ||| RTA_GATEWAY
        ∧ (add_msg T d).m_rtm.rtm_msglen = T.sizeof_rt_msghdr + 32
        ∧ ∀ gw, (del_msg T gw d).m_rtm.rtm_type = T.RTM_DELETE % 256
            ∧ (del_msg T gw d).m_space.take (4 + d.length + 8)
              = [16, T.AF_INET % 256, 0, 0] ++ d ++ [0, 0, 0, 0, 0, 0, 0, 0])
    ∧ (∀ d, d ∈ fill_dests xroutes yroutes zroutes ++ flush_dests xroutes yroutes zroutes →
        ∀ o, o ∈ d → o < 256)
    ∧ (fill_dests xroutes yroutes zroutes).length = zroutes * yroutes * (xroutes - 2)
    ∧ (flush_dests xroutes yroutes zroutes).length = zroutes * xroutes * (yroutes - 2)
    ∧ fill_dests 5 3 1 = [[10, 0, 0, 2], [10, 0, 0, 3], [10, 0, 0, 4], [10, 0, 1, 2],
        [10, 0, 1, 3], [10, 0, 1, 4], [10, 0, 2, 2], [10, 0, 2, 3], [10, 0, 2, 4]]
    ∧ flush_dests 5 3 1 = [[10, 0, 0, 2], [10, 0, 1, 2], [10, 0, 2, 2], [10, 0, 3, 2],
        [10, 0, 4, 2]] := by
  have hw2 : ∀ k, 0 ≤ to_int (env.write k).result := by
    intro k
    obtain ⟨h1, h2⟩ := hw k
    rw [to_int_of_fits _ ⟨by omega, h2⟩]
    exact h1
  refine ⟨?_, ?_, ?_, fill_dests_length _ _ _, flush_dests_length _ _ _, by decide, by decide⟩
  · exact routestress_ok_sock T hT hin env printhist veto xroutes yroutes zroutes h0 ho hw2
  · intro d
    refine ⟨?_, rfl, rfl, rfl, ?_⟩
    · simp only [add_msg, wire_sin, List.append_assoc, List.cons_append, List.nil_append]
    · intro gw
      refine ⟨del_msg_type T gw d, ?_⟩
      have hl : ([16, T.AF_INET % 256, 0, 0] ++ d ++ [0, 0, 0, 0, 0, 0, 0, 0]).length
          = 4 + d.length + 8 := by
        simp only [List.length_append, List.length_cons, List.length_nil]
      cases gw
      · simp only [del_msg, wire_sin, Bool.false_eq_true, if_false]
        rw [← hl, List.take_left]
      · simp only [del_msg, wire_sin, if_true]
        rw [List.append_assoc, ← hl, List.take_left]
  · intro d hd o ho
    rw [List.mem_append, mem_fill_dests, mem_flush_dests] at hd
    rcases hd with ⟨zi, yi, xi, h1, h2, _, h4, rfl⟩ | ⟨zi, xi, yi, h1, h2, _, h4, rfl⟩ <;>
      simp only [List.mem_cons, List.mem_singleton, List.not_mem_nil, or_false] at ho <;>
      omega

/-- C8 on the system where every call succeeds, for 5, 3, 1: the type, the destination and
the length of the fourteen messages written, nine adds then five deletes, and the calls with
the values returned. -/
theorem C8_routestress_calls_witness :
    (sock_of (routestress freebsd64 env_good false 0 5 3 1)).map
        (fun c => match c with
          | .write m len => (m.m_rtm.rtm_type, sent_dest m, len)
          | .read _ => (0, [], 0))
      = [(1, [10, 0, 0, 2], 184), (1, [10, 0, 0, 3], 184), (1, [10, 0, 0, 4], 184),
          (1, [10, 0, 1, 2], 184), (1, [10, 0, 1, 3], 184), (1, [10, 0, 1, 4], 184),
          (1, [10, 0, 2, 2], 184), (1, [10, 0, 2, 3], 184), (1, [10, 0, 2, 4], 184),
          (2, [10, 0, 0, 2], 184), (2, [10, 0, 1, 2], 184), (2, [10, 0, 2, 2], 184),
          (2, [10, 0, 3, 2], 184), (2, [10, 0, 4, 2], 184)]
    ∧ calls_of (routestress freebsd64 env_good false 0 5 3 1)
      = [Call.add [10, 0, 0, 2] [1, 0, 0, 1] 0, Call.add [10, 0, 0, 3] [1, 0, 0, 1] 0,
          Call.add [10, 0, 0, 4] [1, 0, 0, 1] 0, Call.add [10, 0, 1, 2] [1, 0, 0, 1] 0,
          Call.add [10, 0, 1, 3] [1, 0, 0, 1] 0, Call.add [10, 0, 1, 4] [1, 0, 0, 1] 0,
          Call.add [10, 0, 2, 2] [1, 0, 0, 1] 0, Call.add [10, 0, 2, 3] [1, 0, 0, 1] 0,
          Call.add [10, 0, 2, 4] [1, 0, 0, 1] 0, Call.del [10, 0, 0, 2] 0,
          Call.del [10, 0, 1, 2] 0, Call.del [10, 0, 2, 2] 0, Call.del [10, 0, 3, 2] 0,
          Call.del [10, 0, 4, 2] 0] :=
  match (C8_routestress_calls freebsd64 freebsd64_wf rfl env_good false 0 5 3 1 (by decide)
      (by decide) (by decide) opened rfl env_good_write).1 with
  | ⟨_, hr, hs, hc⟩ =>
    ⟨by rw [hr]; exact (congrArg _ hs).trans (by decide), by rw [hr]; exact hc.trans (by decide)⟩

/-- C9, as stated, fails: in the fill phase of nine adds (5, 3, 1), when the third `write`
fails, the run ends after three adds of which the third returned -1, so two adds succeeded,
not three. -/
theorem C9_third_add_fails_two_succeed :
    (fill_dests 5 3 1).length = 9
    ∧ (env_third_fails.write 2).result < 0
    ∧ calls_of (routestress freebsd64 env_third_fails false 0 5 3 1)
        = [Call.add [10, 0, 0, 2] [1, 0, 0, 1] 0, Call.add [10, 0, 0, 3] [1, 0, 0, 1] 0,
            Call.add [10, 0, 0, 4] [1, 0, 0, 1] (-1)]
    ∧ (good_adds (calls_of (routestress freebsd64 env_third_fails false 0 5 3 1))).length = 2
    ∧ ¬ (good_adds (calls_of (routestress freebsd64 env_third_fails false 0 5 3 1))).length
        = 3 := by
  have hok : ∀ j, j < 2 → 0 ≤ to_int (env_third_fails.write j).result := by
    intro j hj
    interval_cases j <;> decide
  obtain ⟨w, hr, hc⟩ := routestress_fail_calls freebsd64 env_third_fails false 0 5 3 1 opened
    rfl 2 (by decide) hok (by decide)
  have hcalls : calls_of (routestress freebsd64 env_third_fails false 0 5 3 1)
      = [Call.add [10, 0, 0, 2] [1, 0, 0, 1] 0, Call.add [10, 0, 0, 3] [1, 0, 0, 1] 0,
          Call.add [10, 0, 0, 4] [1, 0, 0, 1] (-1)] := by
    rw [hr]
    exact hc.trans (by decide)
  refine ⟨by decide, by decide, hcalls, ?_, ?_⟩
  · rw [hcalls]; decide
  · rw [hcalls]; decide

/-- C9, amended: on an opened session and for results of `write` that an `int` holds, when
the add number `k` (counted from 0) is the first whose `write` fails, `routestress` ends the
process at once: the calls made are the first `k` adds, which returned 0, and the failing
add, which returned -1; no further add and no delete is issued. With 5, 3, 1 and the third
add failing these are three adds, two of them successful. -/
theorem C9_first_failed_add (T : Target) (env : Env) (printhist : Bool) (veto : Int)
    (xroutes yroutes zroutes : Nat) (h0 : rt_handle)
    (ho : libroute_open 0 env.socket env.setsockopt = some h0)
    (k : Nat) (hk : k < (fill_dests xroutes yroutes zroutes).length)
    (hfit : ∀ j, j ≤ k → fits_int (env.write j).result)
    (hok : ∀ j, j < k → 0 ≤ (env.write j).result) (hfail : (env.write k).result < 0) :
    ∃ w, routestress T env printhist veto xroutes yroutes zroutes = .error w
      ∧ w.calls = ((fill_dests xroutes yroutes zroutes).take k).map
            (fun d => Call.add d [1, 0, 0, 1] 0)
          ++ (((fill_dests xroutes yroutes zroutes).drop k).take 1).map
            (fun d => Call.add d [1, 0, 0, 1] (-1))
      ∧ w.calls.length = k + 1
      ∧ (good_adds w.calls).length = k
      ∧ dels_of w.calls = [] := by
  obtain ⟨w, hr, hc⟩ := routestress_fail_calls T env printhist veto xroutes yroutes zroutes h0
    ho k hk
    (fun j hj => by rw [to_int_of_fits _ (hfit j (by omega))]; exact hok j hj)
    (by rw [to_int_of_fits _ (hfit k (by omega))]; exact hfail)
  refine ⟨w, hr, hc, ?_, ?_, ?_⟩
  · rw [hc]
    simp only [List.length_append, List.length_map, List.length_take, List.length_drop]
    omega
  · rw [hc, good_adds_calls]
    simp only [List.length_map, List.length_take]
    omega
  · rw [hc]
    exact dels_of_adds _ _ _ _ _

/-- C9, amended, for 5, 3, 1 with the third `write` failing: three adds, the last one failed,
two succeeded. -/
theorem C9_first_failed_add_witness :
    ∃ w, routestress freebsd64 env_third_fails false 0 5 3 1 = .error w
      ∧ w.calls.length = 3 ∧ (good_adds w.calls).length = 2 ∧ dels_of w.calls = [] :=
  match C9_first_failed_add freebsd64 env_third_fails false 0 5 3 1 opened rfl 2 (by decide)
      (fun j hj => by interval_cases j <;> exact ⟨by decide, by decide⟩)
      (fun j hj => by interval_cases j <;> decide) (by decide) with
  | ⟨w, hr, _, hl, hg, hd⟩ => ⟨w, hr, hl, hg, hd⟩

/-- C10, as stated, fails: with `xroutes` 1 and `yroutes` 2, which differ, and `zroutes` 1,
`routestress` returns without a single system call on the control socket, no add and no
delete, so the set deleted and the set added are the same, both empty. -/
theorem C10_both_sets_empty :
    (1 : Nat) ≠ 2
    ∧ sock_of (routestress freebsd64 env_good false 0 1 2 1) = []
    ∧ calls_of (routestress freebsd64 env_good false 0 1 2 1) = []
    ∧ ∀ d, d ∈ wire_dests (freebsd64.RTM_DELETE % 256)
              (sock_of (routestress freebsd64 env_good false 0 1 2 1))
        ↔ d ∈ wire_dests (freebsd64.RTM_ADD % 256)
              (sock_of (routestress freebsd64 env_good false 0 1 2 1)) := by
  obtain ⟨w, hr, hs, hc⟩ := routestress_ok_sock freebsd64 freebsd64_wf rfl env_good false 0
    1 2 1 opened rfl env_good_write_int
  have hsock : sock_of (routestress freebsd64 env_good false 0 1 2 1) = [] := by
    rw [hr]
    exact hs.trans (by decide)
  have hcalls : calls_of (routestress freebsd64 env_good false 0 1 2 1) = [] := by
    rw [hr]
    exact hc.trans (by decide)
  refine ⟨by decide, hsock, hcalls, ?_⟩
  intro d
  rw [hsock]
  simp [wire_dests]

/-- C10, amended: for counts up to 254 with `xroutes` and `yroutes` different, on an opened
session where every `write` succeeds, the destinations carried by the delete messages
written on the socket are those of the flush phase, the destinations carried by the add
messages are those of the fill phase, and the two sets differ exactly when at least one
message is written; none is written exactly when `zroutes` is 0, or both (`yroutes` is 0 or
`xroutes` at most 2) and (`xroutes` is 0 or `yroutes` at most 2), and then both sets are
empty. -/
theorem C10_sets_differ (T : Target) (hT : T.wf) (hin : T.sizeof_sockaddr_in = 16)
    (hops : T.RTM_ADD % 256 ≠ T.RTM_DELETE % 256)
    (env : Env) (printhist : Bool) (veto : Int) (xroutes yroutes zroutes : Nat)
    (hx : xroutes ≤ 254) (hy : yroutes ≤ 254) (hz : zroutes ≤ 254) (h0 : rt_handle)
    (ho : libroute_open 0 env.socket env.setsockopt = some h0)
    (hw : ∀ k, 0 ≤ (env.write k).result ∧ (env.write k).result < 2 ^ 31)
    (hne : xroutes ≠ yroutes) :
    ∃ w, routestress T env printhist veto xroutes yroutes zroutes = .ok w
      ∧ wire_dests (T.RTM_ADD % 256) w.sock = fill_dests xroutes yroutes zroutes
      ∧ wire_dests (T.RTM_DELETE % 256) w.sock = flush_dests xroutes yroutes zroutes
      ∧ ((¬ ∀ d, d ∈ wire_dests (T.RTM_DELETE % 256) w.sock
              ↔ d ∈ wire_dests (T.RTM_ADD % 256) w.sock) ↔ w.sock ≠ [])
      ∧ (w.sock = [] ↔
          (zroutes = 0 ∨ ((yroutes = 0 ∨ xroutes ≤ 2) ∧ (xroutes = 0 ∨ yroutes ≤ 2)))) := by
  have hw2 : ∀ k, 0 ≤ to_int (env.write k).result := by
    intro k
    obtain ⟨h1, h2⟩ := hw k
    rw [to_int_of_fits _ ⟨by omega, h2⟩]
    exact h1
  obtain ⟨w, hr, hc, _⟩ := routestress_ok_sock T hT hin env printhist veto xroutes yroutes
    zroutes h0 ho hw2
  have ha : wire_dests (T.RTM_ADD % 256) w.sock = fill_dests xroutes yroutes zroutes := by
    rw [hc]
    simp only [wire_dests, List.filterMap_append]
    have h1 := wire_dests_adds T (T.RTM_ADD % 256) _ (fill_dests_shape xroutes yroutes zroutes)
    have h2 := wire_dests_dels T (!(fill_dests xroutes yroutes zroutes).isEmpty)
      (T.RTM_ADD % 256) _ (flush_dests_shape xroutes yroutes zroutes)
    rw [if_pos rfl] at h1
    rw [if_neg (fun hc2 => hops hc2.symm)] at h2
    simp only [wire_dests] at h1 h2
    rw [h1, h2, List.append_nil]
  have hd : wire_dests (T.RTM_DELETE % 256) w.sock = flush_dests xroutes yroutes zroutes := by
    rw [hc]
    simp only [wire_dests, List.filterMap_append]
    have h1 := wire_dests_adds T (T.RTM_DELETE % 256) _
      (fill_dests_shape xroutes yroutes zroutes)
    have h2 := wire_dests_dels T (!(fill_dests xroutes yroutes zroutes).isEmpty)
      (T.RTM_DELETE % 256) _ (flush_dests_shape xroutes yroutes zroutes)
    rw [if_neg hops] at h1
    rw [if_pos rfl] at h2
    simp only [wire_dests] at h1 h2
    rw [h1, h2, List.nil_append]
  have hempty : w.sock = [] ↔
      (zroutes = 0 ∨ ((yroutes = 0 ∨ xroutes ≤ 2) ∧ (xroutes = 0 ∨ yroutes ≤ 2))) := by
    rw [← List.length_eq_zero, hc, List.length_append, List.length_map, List.length_map,
      fill_dests_length, flush_dests_length, Nat.add_eq_zero_iff, Nat.mul_eq_zero,
      Nat.mul_eq_zero, Nat.mul_eq_zero, Nat.mul_eq_zero]
    omega
  have hfill_in : 1 ≤ zroutes → 1 ≤ yroutes → 3 ≤ xroutes →
      [10, 0, 0, xroutes - 1] ∈ fill_dests xroutes yroutes zroutes := by
    intro h1 h2 h3
    rw [mem_fill_dests]
    exact ⟨0, 0, xroutes - 1, by omega, by omega, by omega, by omega, rfl⟩
  have hflush_in : 1 ≤ zroutes → 1 ≤ xroutes → 3 ≤ yroutes →
      [10, 0, 0, yroutes - 1] ∈ flush_dests xroutes yroutes zroutes := by
    intro h1 h2 h3
    rw [mem_flush_dests]
    exact ⟨0, 0, yroutes - 1, by omega, by omega, by omega, by omega, rfl⟩
  have hfill_out : ∀ a, [10, 0, 0, a] ∈ fill_dests xroutes yroutes zroutes → a < xroutes := by
    intro a hmem
    rw [mem_fill_dests] at hmem
    obtain ⟨zi, yi, xi, _, _, _, h4, he⟩ := hmem
    simp only [List.cons.injEq, and_true, true_and] at he
    omega
  have hflush_out : ∀ a, [10, 0, 0, a] ∈ flush_dests xroutes yroutes zroutes →
      a < yroutes := by
    intro a hmem
    rw [mem_flush_dests] at hmem
    obtain ⟨zi, xi, yi, _, _, _, h4, he⟩ := hmem
    simp only [List.cons.injEq, and_true, true_and] at he
    omega
  refine ⟨w, hr, ha, hd, ?_, hempty⟩
  rw [ha, hd]
  constructor
  · intro hdiff hnil
    apply hdiff
    intro d
    have h1 : fill_dests xroutes yroutes zroutes = [] := by rw [← ha, hnil]; rfl
    have h2 : flush_dests xroutes yroutes zroutes = [] := by rw [← hd, hnil]; rfl
    rw [h1, h2]
  · intro hnon hall
    have hcond : ¬ (zroutes = 0 ∨ ((yroutes = 0 ∨ xroutes ≤ 2) ∧ (xroutes = 0 ∨ yroutes ≤ 2))) :=
      fun hc2 => hnon (hempty.2 hc2)
    by_cases hcase : 1 ≤ yroutes ∧ 3 ≤ xroutes
    · have m1 := hflush_out _ ((hall _).2 (hfill_in (by omega) hcase.1 hcase.2))
      have m2 := hfill_out _ ((hall _).1 (hflush_in (by omega) (by omega) (by omega)))
      omega
    · have hb : 1 ≤ xroutes ∧ 3 ≤ yroutes := by omega
      have m1 := hfill_out _ ((hall _).1 (hflush_in (by omega) hb.1 hb.2))
      have m2 := hflush_out _ ((hall _).2 (hfill_in (by omega) (by omega) (by omega)))
      omega

/-- C10, amended, for 5, 3, 1 on the system where every call succeeds: the run returns, the
sets of the two phases differ, and messages were written. -/
theorem C10_sets_differ_witness :
    ∃ w, routestress freebsd64 env_good false 0 5 3 1 = .ok w
      ∧ wire_dests (freebsd64.RTM_DELETE % 256) w.sock
          = [[10, 0, 0, 2], [10, 0, 1, 2], [10, 0, 2, 2], [10, 0, 3, 2], [10, 0, 4, 2]]
      ∧ ((¬ ∀ d, d ∈ wire_dests (freebsd64.RTM_DELETE % 256) w.sock
              ↔ d ∈ wire_dests (freebsd64.RTM_ADD % 256) w.sock) ↔ w.sock ≠ []) :=
  match C10_sets_differ freebsd64 freebsd64_wf rfl (by decide) env_good false 0 5 3 1
      (by decide) (by decide) (by decide) opened rfl env_good_write
      (by decide) with
  | ⟨w, hr, _, hd, hiff, _⟩ => ⟨w, hr, hd.trans (by decide), hiff⟩

/-- C11 (the code departs from the claim): a batch passes to `histstore` only the nanoseconds
field of the elapsed time, whatever the seconds field is. With the readings 0 s and
1.005 s the batch lasted 1005000000 ns, for which `histstore` chooses the catch-all bucket
10, but the value recorded is 5000000 and the bucket incremented is bucket 5, in the batch
alone and in the whole run of `routestress` with counts 3, 1, 1. -/
theorem C11_seconds_of_elapsed_dropped :
    (∀ (s n : Nat), recorded_ns ⟨0, 0⟩ ⟨s, (n % 1000000000 : Nat)⟩ = n % 1000000000)
    ∧ env_good.clock 0 = ⟨0, 0⟩ ∧ env_good.clock 1 = ⟨1, 5000000⟩
    ∧ duration_ns (env_good.clock 0) (env_good.clock 1) = 1005000000
    ∧ bucket_of 1005000000 = 10
    ∧ recorded_ns (env_good.clock 0) (env_good.clock 1) = 5000000
    ∧ bucket_of 5000000 = 5
    ∧ buckets_of (fill_batch freebsd64 env_good (str_to_sockaddr freebsd64 gateway_addr)
        gateway_addr 0 3 0 0 (World.init opened)) = [0, 0, 0, 0, 0, 1, 0, 0, 0, 0, 0]
    ∧ buckets_of (routestress freebsd64 env_good false 0 3 1 1)
        = [0, 0, 0, 0, 0, 1, 0, 0, 0, 0, 0] := by
  refine ⟨?_, rfl, rfl, by decide, by decide, by decide, by decide, by decide, by decide⟩
  intro s n
  simp only [recorded_ns, timespecsub]
  have h1 : ¬ ((n % 1000000000 : Nat) : Int) - 0 < 0 := by omega
  rw [if_neg h1]
  simp only
  omega

end Memstress
